import Mathlib

/-!
# pbody: codec registry, dispatch, and the bundled JSON codec

A shallow embedding of `decode.go` (package `pbody`) and `json/decode.go`
(package `json`), followed by theorems about them.

Conventions of the embedding.

* A Go `error` is `Option GoError`: `none` is `nil`.
* Go's standard-library semantics that the program relies on (`errors.Is`,
  `errors.As`, `errors.Join`, `fmt.Errorf`, `append`, atomic pointers) are
  modelled as definitions.  Library functions with a large behaviour of
  their own (the media-type parser, `strconv.Quote`, the `encoding/json`
  decoder) are parameters.
* Every call made through a function-typed field or into the media-type
  parser is recorded, in program order, in a log returned next to the
  result.
-/

set_option autoImplicit false

/-! ## Go errors -/

/-- A non-nil Go error value.

* `sentinel name text`: the object held by the package-level variable `name`
  (`var ErrX = errors.New(text)`); two sentinels are the same object iff they
  have the same name.
* `errorString s`: any other leaf error with message `s` and no `Unwrap`,
  such as the result of `fmt.Errorf` without `%w`.
* `syntaxError`, `unmarshalTypeError`: `*json.SyntaxError` and
  `*json.UnmarshalTypeError` of `encoding/json`.
* `maxBytesError addr Limit`: the `*http.MaxBytesError` allocated at address
  `addr`.
* `wrapError msg err`: the result of `fmt.Errorf` with one `%w`; `msg` is
  the formatted text, `err` is what `Unwrap` returns.
* `joinError errs`: the result of `errors.Join`.

No error type with an `Is` or `As` method of its own is represented. -/
inductive GoError where
  | sentinel (name : String) (text : String)
  | errorString (s : String)
  | syntaxError (msg : String) (Offset : Int)
  | unmarshalTypeError (Value : String) (GoType : String) (Offset : Int)
      (Struct : String) (Field : String)
  | maxBytesError (addr : Nat) (Limit : Int)
  | wrapError (msg : String) (err : GoError)
  | joinError (errs : List GoError)

namespace GoError

mutual
/-- The method `Error()`. -/
def Error : GoError → String
  | sentinel _ text => text
  | errorString s => s
  | syntaxError msg _ => msg
  | unmarshalTypeError v t _ s f =>
      if s ≠ "" ∨ f ≠ "" then
        "json: cannot unmarshal " ++ v ++ " into Go struct field " ++ s ++ "." ++ f
          ++ " of type " ++ t
      else
        "json: cannot unmarshal " ++ v ++ " into Go value of type " ++ t
  | maxBytesError _ _ => "http: request body too large"
  | wrapError msg _ => msg
  | joinError errs => ErrorJoined errs
/-- The text of a `joinError`: the messages separated by newlines. -/
def ErrorJoined : List GoError → String
  | [] => ""
  | [e] => Error e
  | e :: f :: es => Error e ++ "\n" ++ ErrorJoined (f :: es)
end

/-- Go's `==` between an error of the chain and a comparison target: identity
of the two objects.  Package-level variables are identified by name and
`*http.MaxBytesError` objects by address.  Objects of the other kinds are
created during the call under study and are never a comparison target of the
program, so no identity is tracked for them. -/
def identical : GoError → GoError → Bool
  | sentinel a _, sentinel b _ => a == b
  | maxBytesError a _, maxBytesError b _ => a == b
  | _, _ => false

mutual
/-- The largest address of a `*http.MaxBytesError` reachable from an error. -/
def maxAddr : GoError → Nat
  | maxBytesError addr _ => addr
  | wrapError _ err => maxAddr err
  | joinError errs => maxAddrList errs
  | _ => 0
/-- The largest address reachable from a list of errors. -/
def maxAddrList : List GoError → Nat
  | [] => 0
  | e :: es => max (maxAddr e) (maxAddrList es)
end

end GoError

/-- The address of an object allocated while `err` is live: one that no
object reachable from `err` has. -/
def freshAddr (err : GoError) : Nat := err.maxAddr + 1

namespace errors

mutual
/-- The loop of `errors.Is` on a non-nil error: compare, then follow `Unwrap() error` or
each element of `Unwrap() []error`, depth first. -/
def is : GoError → GoError → Bool
  | .wrapError msg err, target =>
      (GoError.wrapError msg err).identical target || is err target
  | .joinError errs, target =>
      (GoError.joinError errs).identical target || isAny errs target
  | .sentinel n t, target => (GoError.sentinel n t).identical target
  | .errorString s, target => (GoError.errorString s).identical target
  | .syntaxError m o, target => (GoError.syntaxError m o).identical target
  | .unmarshalTypeError v t o s f, target =>
      (GoError.unmarshalTypeError v t o s f).identical target
  | .maxBytesError a l, target => (GoError.maxBytesError a l).identical target
/-- The `range x.Unwrap()` loop of `errors.Is`. -/
def isAny : List GoError → GoError → Bool
  | [], _ => false
  | e :: es, target => is e target || isAny es target
end

/-- The function `errors.Is(err, target)` for a non-nil target. -/
def Is : Option GoError → GoError → Bool
  | none, _ => false
  | some err, target => is err target

mutual
/-- The loop of `errors.As` on a non-nil error, for a target whose type is described by
`ofType`: the first error of the depth-first traversal that has the type. -/
def as (ofType : GoError → Bool) : GoError → Option GoError
  | .wrapError msg err =>
      if ofType (.wrapError msg err) then some (.wrapError msg err) else as ofType err
  | .joinError errs =>
      if ofType (.joinError errs) then some (.joinError errs) else asAny ofType errs
  | e => if ofType e then some e else none
/-- The `range x.Unwrap()` loop of `errors.As`. -/
def asAny (ofType : GoError → Bool) : List GoError → Option GoError
  | [] => none
  | e :: es =>
      match as ofType e with
      | some found => some found
      | none => asAny ofType es
end

/-- The function `errors.Join`: nil arguments are dropped, and the result is nil when
none is left. -/
def Join (errs : List (Option GoError)) : Option GoError :=
  match errs.filterMap id with
  | [] => none
  | es => some (.joinError es)

end errors

/-- The dynamic type `*json.SyntaxError`. -/
def isSyntaxError : GoError → Bool
  | .syntaxError _ _ => true
  | _ => false

/-- The dynamic type `*json.UnmarshalTypeError`. -/
def isUnmarshalTypeError : GoError → Bool
  | .unmarshalTypeError _ _ _ _ _ => true
  | _ => false

/-- The dynamic type `*http.MaxBytesError`. -/
def isMaxBytesError : GoError → Bool
  | .maxBytesError _ _ => true
  | _ => false

/-! ## Sentinel errors of the packages involved -/

/-- The variable `io.EOF`. -/
def io.EOF : GoError := .sentinel "io.EOF" "EOF"
/-- The variable `io.ErrUnexpectedEOF`. -/
def io.ErrUnexpectedEOF : GoError := .sentinel "io.ErrUnexpectedEOF" "unexpected EOF"
/-- The variable `herr.ErrBadRequest` (HTTP 400). -/
def herr.ErrBadRequest : GoError := .sentinel "herr.ErrBadRequest" "Bad Request"
/-- The variable `herr.ErrUnsupportedMediaType` (HTTP 415). -/
def herr.ErrUnsupportedMediaType : GoError :=
  .sentinel "herr.ErrUnsupportedMediaType" "Unsupported Media Type"
/-- The variable `herr.ErrTooLarge` (HTTP 413). -/
def herr.ErrTooLarge : GoError := .sentinel "herr.ErrTooLarge" "Request Entity Too Large"
/-- The variable `contenttype.ErrInvalidMediaType`. -/
def contenttype.ErrInvalidMediaType : GoError :=
  .sentinel "contenttype.ErrInvalidMediaType" "invalid media type"

/-! ## Slices and the heap -/

/-- A Go slice header: the address of the backing array, the length and the capacity. -/
structure Slice where
  array : Nat
  len : Nat
  cap : Nat
deriving DecidableEq, Repr

/-- The part of the heap the registry lives in.

* `arrays[a]` is the backing array at address `a`, as the list of its slots that
  have been written (the slots behind them, up to the capacity, hold zero values).
* `cells[p]` is the slice header stored in the heap variable at address `p`
  (a local `[]Codec` variable whose address was taken). -/
structure Heap (α : Type) where
  arrays : List (List α)
  cells : List Slice

namespace Heap

variable {α : Type}

/-- The heap before anything is allocated. -/
def empty : Heap α := ⟨[], []⟩

/-- The write `a[i] = x` into a backing array. -/
def writeSlot (a : List α) (i : Nat) (x : α) : List α :=
  a.take i ++ x :: a.drop (i + 1)

/-- The elements `s[0], ..., s[len-1]` of a slice. -/
def elems (h : Heap α) (s : Slice) : List α :=
  (h.arrays.getD s.array []).take s.len

/-- The dereference `*p` of a pointer to a slice variable. -/
def deref (h : Heap α) (p : Nat) : Slice :=
  h.cells.getD p ⟨0, 0, 0⟩

/-- The elements of the slice that `p` points to. -/
def read (h : Heap α) (p : Nat) : List α :=
  h.elems (h.deref p)

/-- The composite literal `[]T{x}`: a new array of one slot. -/
def literal (h : Heap α) (x : α) : Heap α × Slice :=
  ({ h with arrays := h.arrays ++ [[x]] }, ⟨h.arrays.length, 1, 1⟩)

/-- The loop of the runtime's `nextslicecap` for capacities from 256 on. -/
def nextslicecapLoop : Nat → Nat → Nat → Nat
  | 0, newcap, _ => newcap
  | fuel + 1, newcap, newLen =>
      let newcap := newcap + (newcap + 3 * 256) / 4
      if newcap ≥ newLen then newcap else nextslicecapLoop fuel newcap newLen

/-- The runtime's `nextslicecap`: the capacity of the array that `append` allocates
when the old one is full (before rounding up to an allocator size class, which for
the 16-byte `Codec` leaves the capacities 2, 4, 8, ... unchanged). -/
def nextslicecap (newLen oldCap : Nat) : Nat :=
  if newLen > oldCap + oldCap then newLen
  else if oldCap < 256 then oldCap + oldCap
  else nextslicecapLoop newLen oldCap newLen

/-- The built-in `append(s, x)`: when the capacity allows, `x` is written into the
backing array of `s` right behind its elements and the result shares that array;
otherwise the elements are copied into a new, larger array. -/
def append (h : Heap α) (s : Slice) (x : α) : Heap α × Slice :=
  if s.len < s.cap then
    ({ h with arrays := h.arrays.set s.array (writeSlot (h.arrays.getD s.array []) s.len x) },
      { s with len := s.len + 1 })
  else
    ({ h with arrays := h.arrays ++ [h.elems s ++ [x]] },
      ⟨h.arrays.length, s.len + 1, nextslicecap (s.len + 1) s.cap⟩)

/-- Moving a slice variable to the heap: the address of the new cell. -/
def newCell (h : Heap α) (s : Slice) : Heap α × Nat :=
  ({ h with cells := h.cells ++ [s] }, h.cells.length)

end Heap

/-! ## Package pbody -/

namespace contenttype

/-- The struct `contenttype.MediaType`; `Type_` is its field `Type`. -/
structure MediaType where
  Type_ : String
  Subtype : String
  Parameters : List (String × String)
deriving DecidableEq, Repr

end contenttype

open contenttype (MediaType)

/-- Library functions that `decode.go` and `json/decode.go` call and that are
not part of the repository. -/
structure Externals where
  /-- The function `contenttype.ParseMediaType`. -/
  ParseMediaType : String → Except GoError MediaType
  /-- The method `MediaType.String`. -/
  MediaTypeString : MediaType → String
  /-- The verb `%q` of package `fmt` on a string (`strconv.Quote`). -/
  Quote : String → String

/-- An `*http.Request`, as far as the package reads it: the header map, a missing
key yielding the nil slice. -/
structure Request where
  Header : String → List String

/-- The method `r.Header.Values(key)` for a key in canonical form. -/
def Request.HeaderValues (r : Request) (key : String) : List String :=
  r.Header key

namespace pbody

/-- The variable `ErrMissingContentType`. -/
def ErrMissingContentType : GoError :=
  .sentinel "pbody.ErrMissingContentType" "missing content-type"
/-- The variable `ErrUnsupportedMediaType`. -/
def ErrUnsupportedMediaType : GoError :=
  .sentinel "pbody.ErrUnsupportedMediaType" "unsupported media type"
/-- Modelled from the spec: the variable `ErrBadContent`, which `json/decode.go` uses
and no file at hand declares; the shared "bad request content" marker, an error
value of package `pbody` like the two above. -/
def ErrBadContent : GoError :=
  .sentinel "pbody.ErrBadContent" "bad content"

/-- The struct `Codec`, over the type `R` of body streams (`io.Reader`) and the type `O`
of destinations (`any`).  Both fields hold functions (neither is nil). -/
structure Codec (R O : Type) where
  DetectFn : MediaType → Bool
  DecodeFn : R → MediaType → O → Option GoError

/-- One entry of the call log. -/
inductive Call (R O : Type) where
  | ParseMediaType (s : String)
  | DetectFn (codec : Codec R O) (mtype : MediaType)
  | DecodeFn (codec : Codec R O) (r : R) (mtype : MediaType) (out : O)

/-- The struct `Decoder`: `codecsPtr` is nil or the address of a `[]Codec` variable. -/
structure Decoder where
  codecsPtr : Option Nat
deriving DecidableEq, Repr

namespace Decoder

variable {R O : Type}

/-- The method `codecsPtr.Load`. -/
def Load (d : Decoder) : Option Nat := d.codecsPtr

/-- The method `codecsPtr.CompareAndSwap(old, new)`. -/
def CompareAndSwap (d : Decoder) (old new : Option Nat) : Bool × Decoder :=
  if d.codecsPtr = old then (true, ⟨new⟩) else (false, d)

/-- The registry as a lookup sees it: nil, or the elements of the slice loaded. -/
def snapshot (h : Heap (Codec R O)) (d : Decoder) : Option (List (Codec R O)) :=
  d.Load.map h.read

/-- The loop `for i := range *registry` of `findCodec`. -/
def findCodecLoop (mtype : MediaType) : List (Codec R O) → Option (Codec R O) × List (Call R O)
  | [] => (none, [])
  | c :: rest =>
      if !c.DetectFn mtype then
        ((findCodecLoop mtype rest).1, Call.DetectFn c mtype :: (findCodecLoop mtype rest).2)
      else
        (some c, [Call.DetectFn c mtype])

/-- The method `findCodec`; `none` stands for `ok = false`. -/
def findCodec (h : Heap (Codec R O)) (d : Decoder) (mtype : MediaType) :
    Option (Codec R O) × List (Call R O) :=
  match d.Load with
  | none => (none, [])
  | some registry => findCodecLoop mtype (h.read registry)

/-- Lines 65 to 72 of `Register`, up to the argument `&newRegistry` of the swap. -/
def buildRegistry (h : Heap (Codec R O)) (oldRegistry : Option Nat) (codec : Codec R O) :
    Heap (Codec R O) × Nat :=
  match oldRegistry with
  | none => (h.literal codec).1.newCell (h.literal codec).2
  | some p => (h.append (h.deref p) codec).1.newCell (h.append (h.deref p) codec).2

/-- The loop of `Register`, run for at most the given number of iterations with no
other goroutine running; `none` when the iterations are used up. -/
def RegisterLoop (codec : Codec R O) :
    Nat → Heap (Codec R O) → Decoder → Option (Heap (Codec R O) × Decoder)
  | 0, _, _ => none
  | fuel + 1, h, d =>
      let oldRegistry := d.Load
      let built := buildRegistry h oldRegistry codec
      match d.CompareAndSwap oldRegistry (some built.2) with
      | (true, d1) => some (built.1, d1)
      | (false, d1) => RegisterLoop codec fuel built.1 d1

/-- The method `Decode`. -/
def Decode (ext : Externals) (h : Heap (Codec R O)) (d : Decoder) (r : Request) (body : R)
    (out : O) : Option GoError × List (Call R O) :=
  match r.HeaderValues "Content-Type" with
  | [] => (errors.Join [some herr.ErrBadRequest, some ErrMissingContentType], [])
  | ctHeader :: _ =>
    if ctHeader = "" then
      (errors.Join [some herr.ErrBadRequest, some ErrMissingContentType], [])
    else
      match ext.ParseMediaType ctHeader with
      | .error err =>
          (errors.Join [some herr.ErrUnsupportedMediaType,
              some (.wrapError (ext.Quote ctHeader ++ ": " ++ err.Error) err)],
            [Call.ParseMediaType ctHeader])
      | .ok mtype =>
          match findCodec h d mtype with
          | (none, log) =>
              (errors.Join [some herr.ErrUnsupportedMediaType,
                  some (.wrapError (ext.Quote (ext.MediaTypeString mtype) ++ ": "
                    ++ ErrUnsupportedMediaType.Error) ErrUnsupportedMediaType)],
                Call.ParseMediaType ctHeader :: log)
          | (some codec, log) =>
              let calls := Call.ParseMediaType ctHeader :: log
                ++ [Call.DecodeFn codec body mtype out]
              match codec.DecodeFn body mtype out with
              | some err =>
                  if errors.Is (some err) (.maxBytesError (freshAddr err) 0) then
                    (errors.Join [some herr.ErrTooLarge, some err], calls)
                  else
                    (some err, calls)
              | none => (none, calls)

end Decoder

end pbody

/-! ## Goroutines running `Register` -/

namespace pbody

/-- The point a goroutine has reached in `Register`: before the `Load`, before lines 65
to 70, before the `CompareAndSwap`, or after the `break`. -/
inductive PC where
  | load
  | build
  | swap
  | done
deriving DecidableEq, Repr

/-- A goroutine in a call `Register(codec)`, with its local variables; `newRegistry`
is the address `&newRegistry`. -/
structure Goroutine (R O : Type) where
  codec : Codec R O
  pc : PC
  oldRegistry : Option Nat
  newRegistry : Nat

/-- A decoder shared by goroutines, and the heap. -/
structure System (R O : Type) where
  heap : Heap (Codec R O)
  decoder : Decoder
  goroutines : List (Goroutine R O)

variable {R O : Type}

/-- A goroutine that has just entered `Register(codec)`. -/
def Goroutine.start (codec : Codec R O) : Goroutine R O :=
  ⟨codec, .load, none, 0⟩

/-- One step of a goroutine: the `Load`, lines 65 to 70, or the `CompareAndSwap` with the
`break` or the jump back to the head of the loop. -/
def Goroutine.step (h : Heap (Codec R O)) (d : Decoder) (g : Goroutine R O) :
    Heap (Codec R O) × Decoder × Goroutine R O :=
  match g.pc with
  | .load => (h, d, { g with oldRegistry := d.Load, pc := .build })
  | .build =>
      ((Decoder.buildRegistry h g.oldRegistry g.codec).1, d,
        { g with newRegistry := (Decoder.buildRegistry h g.oldRegistry g.codec).2, pc := .swap })
  | .swap =>
      match d.CompareAndSwap g.oldRegistry (some g.newRegistry) with
      | (true, d1) => (h, d1, { g with pc := .done })
      | (false, d1) => (h, d1, { g with pc := .load })
  | .done => (h, d, g)

/-- The system after goroutine `i` takes its next step. -/
def System.step (s : System R O) (i : Nat) : System R O :=
  match s.goroutines.get? i with
  | none => s
  | some g =>
      { heap := (g.step s.heap s.decoder).1
        decoder := (g.step s.heap s.decoder).2.1
        goroutines := s.goroutines.set i (g.step s.heap s.decoder).2.2 }

/-- The system after the goroutines take steps in the order of a schedule. -/
def System.run (s : System R O) (schedule : List Nat) : System R O :=
  schedule.foldl System.step s

/-- Every goroutine has returned from `Register`. -/
def System.allDone (s : System R O) : Bool :=
  s.goroutines.all fun g => g.pc == .done

end pbody

/-! ## Package json -/

/-- Where a call of the method `Decode` of `*json.Decoder` stores the value: `&out`, or
the `&struct{}{}` of the second call. -/
inductive DecodeTarget (O : Type) where
  | out (o : O)
  | emptyStruct

/-- The decoder of `encoding/json` over streams `R` and destinations `O`, with `D` the
state of a `*json.Decoder`. -/
structure EncodingJson (R O D : Type) where
  /-- The function `json.NewDecoder`. -/
  NewDecoder : R → D
  /-- The method `DisallowUnknownFields`. -/
  DisallowUnknownFields : D → D
  /-- The method `Decode`: the error returned and the state afterwards. -/
  Decode : D → DecodeTarget O → Option GoError × D

namespace strings

/-- The function `strings.HasPrefix`. -/
def HasPrefix (s pre : String) : Bool :=
  pre.toList.isPrefixOf s.toList

/-- The function `strings.TrimPrefix`. -/
def TrimPrefix (s pre : String) : String :=
  if HasPrefix s pre then String.mk (s.toList.drop pre.toList.length) else s

end strings

namespace pbody.json

variable {R O D : Type}

/-- The function `errf`, applied to the formatted text. -/
def errf (text : String) : Option GoError :=
  errors.Join [some herr.ErrBadRequest, some pbody.ErrBadContent, some (.errorString text)]

/-- The function `Detect`. -/
def Detect (mtype : MediaType) : Bool :=
  mtype.Type_ == "application" && mtype.Subtype == "json"

/-- The `switch` of `Decode` on the error of the first call of the decoder. -/
def classify (ext : Externals) (err : GoError) : Option GoError :=
  match errors.as isSyntaxError err with
  | some (.syntaxError _ offset) =>
      errf ("malformed JSON (at position " ++ toString offset ++ ")")
  | _ =>
    if errors.Is (some err) io.ErrUnexpectedEOF then
      errf "malformed JSON"
    else
      match errors.as isUnmarshalTypeError err with
      | some (.unmarshalTypeError _ _ offset _ field) =>
          errf ("malformed JSON (at position " ++ toString offset ++ "), bad value for "
            ++ ext.Quote field)
      | _ =>
        if strings.HasPrefix err.Error "json: unknown field " then
          errf ("unknown field " ++ strings.TrimPrefix err.Error "json: unknown field ")
        else if errors.Is (some err) io.EOF then
          errf "body must not be empty"
        else
          errors.Join [some herr.ErrBadRequest, some err]

/-- The function `Decode`. -/
def Decode (ext : Externals) (js : EncodingJson R O D) (r : R) (_mtype : MediaType) (out : O) :
    Option GoError :=
  let dec := js.DisallowUnknownFields (js.NewDecoder r)
  match js.Decode dec (.out out) with
  | (some err, _) => classify ext err
  | (none, dec1) =>
      match (js.Decode dec1 .emptyStruct).1 with
      | some err => if err.identical io.EOF then none else errf "multiple json objects"
      | none => errf "multiple json objects"

/-- The variable `Codec`. -/
def Codec (ext : Externals) (js : EncodingJson R O D) : pbody.Codec R O :=
  { DetectFn := Detect, DecodeFn := Decode ext js }

end pbody.json

namespace pbody.Decoder

variable {R O : Type}

/-- The registry a lookup iterates over: the snapshot, or nothing when the pointer is nil. -/
def registry (h : Heap (Codec R O)) (d : Decoder) : List (Codec R O) :=
  (d.snapshot h).getD []

end pbody.Decoder

namespace pbody.Decoder

variable {R O : Type}

/-- The calls `Register(c1)`, ..., `Register(cn)` one after the other, each given `fuel`
iterations of its loop. -/
def RegisterAll (fuel : Nat) :
    List (Codec R O) → Heap (Codec R O) → Decoder → Option (Heap (Codec R O) × Decoder)
  | [], h, d => some (h, d)
  | c :: cs, h, d =>
      match RegisterLoop c fuel h d with
      | none => none
      | some (h1, d1) => RegisterAll fuel cs h1 d1

/-- The pointer of a decoder, when not nil, is the address of a cell whose slice lies in
an allocated array and has written slots only. -/
def WellFormed (h : Heap (Codec R O)) (d : Decoder) : Prop :=
  ∀ p, d.codecsPtr = some p →
    p < h.cells.length ∧ (h.deref p).array < h.arrays.length
    ∧ (h.deref p).len ≤ (h.arrays.getD (h.deref p).array []).length

end pbody.Decoder

/-! ## Concrete instances -/

namespace Sample

/-- A stand-in for the media-type parser: `type/subtype` with both parts non-empty and
one slash, anything else being rejected with `contenttype.ErrInvalidMediaType`. -/
def parse (s : String) : Except GoError MediaType :=
  match s.toList.dropWhile (fun c => c != '/') with
  | '/' :: sub =>
      if s.toList.takeWhile (fun c => c != '/') ≠ [] ∧ sub ≠ [] ∧ '/' ∉ sub then
        .ok ⟨String.mk (s.toList.takeWhile (fun c => c != '/')), String.mk sub, []⟩
      else .error contenttype.ErrInvalidMediaType
  | _ => .error contenttype.ErrInvalidMediaType

/-- Library functions for the concrete instances. -/
def ext : Externals :=
  { ParseMediaType := parse
    MediaTypeString := fun m => m.Type_ ++ "/" ++ m.Subtype
    Quote := fun s => "\"" ++ s ++ "\"" }

/-- A request with the given `Content-Type` values and no other header. -/
def request (values : List String) : Request :=
  ⟨fun key => if key = "Content-Type" then values else []⟩

/-- A codec for `application/<subtype>` whose decode function returns `result`. -/
def codec (subtype : String) (result : Option GoError) : pbody.Codec Unit Unit :=
  { DetectFn := fun m => m.Type_ == "application" && m.Subtype == subtype
    DecodeFn := fun _ _ _ => result }

/-- The media type `application/json`. -/
def appJson : MediaType := ⟨"application", "json", []⟩


/-- A decoder after `Register` has been called with the given codecs, one call after the
other, starting from the zero value. -/
def setup (cs : List (pbody.Codec Unit Unit)) : Heap (pbody.Codec Unit Unit) × pbody.Decoder :=
  (pbody.Decoder.RegisterAll 1 cs Heap.empty ⟨none⟩).getD (Heap.empty, ⟨none⟩)

/-- The media type `application/<subtype>`. -/
def app (subtype : String) : MediaType := ⟨"application", subtype, []⟩

/-- Two goroutines entering `Register(a)` and `Register(b)` on a decoder that
`Register(c1)`, `Register(c2)` and `Register(c3)` were called on before. -/
def racing : pbody.System Unit Unit :=
  { heap := (setup [codec "c1" none, codec "c2" none, codec "c3" none]).1
    decoder := (setup [codec "c1" none, codec "c2" none, codec "c3" none]).2
    goroutines := [pbody.Goroutine.start (codec "a" none), pbody.Goroutine.start (codec "b" none)] }

end Sample


namespace pbody

variable {R O : Type}

/-- Whether a log entry is a call of a codec's `DecodeFn`. -/
def Call.isDecodeFn : Call R O → Bool
  | .DecodeFn _ _ _ _ => true
  | _ => false

/-- Whether a log entry is a call of a codec's `DetectFn`. -/
def Call.isDetectFn : Call R O → Bool
  | .DetectFn _ _ => true
  | _ => false

end pbody

namespace pbody.json

/-- The condition under which the `switch` of `Decode` reaches its `default` case: none of
the five cases before it applies to the error of the first call of the decoder. -/
def reachesDefault (err : GoError) : Bool :=
  (errors.as isSyntaxError err).isNone
    && !errors.Is (some err) io.ErrUnexpectedEOF
    && (errors.as isUnmarshalTypeError err).isNone
    && !strings.HasPrefix err.Error "json: unknown field "
    && !errors.Is (some err) io.EOF

end pbody.json

namespace Sample

/-- A decoder of `encoding/json` whose first call of `Decode` returns `first` and whose
later calls return `second`; its state counts the calls. -/
def js (first second : Option GoError) : EncodingJson Unit Unit Nat :=
  { NewDecoder := fun _ => 0
    DisallowUnknownFields := fun n => n
    Decode := fun n _ => (if n = 0 then first else second, n + 1) }

end Sample

namespace strings

/-- The search of `strings.Contains` over the characters of the string. -/
def containsChars (substr : List Char) : List Char → Bool
  | [] => substr.isPrefixOf []
  | c :: cs => substr.isPrefixOf (c :: cs) || containsChars substr cs

/-- The function `strings.Contains`. -/
def Contains (s substr : String) : Bool :=
  containsChars substr.toList s.toList

end strings

/-- The message of a Go error, the empty text for nil (what `ErrorContains` of the tests
searches when the error is not nil). -/
def errorText : Option GoError → String
  | none => ""
  | some err => err.Error

namespace pbody

variable {R O : Type}

/-- The package-level function `Register`; the argument `Default` is the value of the
package-level variable `Default`, and `fuel` bounds the iterations of the loop. -/
def Register (codec : Codec R O) (fuel : Nat) (h : Heap (Codec R O)) (Default : Decoder) :
    Option (Heap (Codec R O) × Decoder) :=
  Default.RegisterLoop codec fuel h

/-- The package-level function `Decode`. -/
def Decode (ext : Externals) (h : Heap (Codec R O)) (Default : Decoder) (r : Request) (body : R)
    (out : O) : Option GoError × List (Call R O) :=
  Default.Decode ext h r body out

/-- Two decoders whose slices, if they have one, lie in different backing arrays: what
holds of decoders that were each built from a zero value by calls of `Register`. -/
def Decoder.Separate (h : Heap (Codec R O)) (d1 d2 : Decoder) : Prop :=
  ∀ p1 p2, d1.codecsPtr = some p1 → d2.codecsPtr = some p2 →
    (h.deref p1).array ≠ (h.deref p2).array

end pbody

namespace Sample

/-- A heap with two decoders, each built from a zero value: `Register` was called on the
first with `c1`, `c2`, `c3` and then on the second with `x`. -/
def pair : Heap (pbody.Codec Unit Unit) × pbody.Decoder × pbody.Decoder :=
  (((pbody.Decoder.RegisterLoop (codec "x" none) 1 racing.heap ⟨none⟩).getD
      (racing.heap, ⟨none⟩)).1,
    racing.decoder,
    ((pbody.Decoder.RegisterLoop (codec "x" none) 1 racing.heap ⟨none⟩).getD
      (racing.heap, ⟨none⟩)).2)

end Sample

/-! # Theorems -/

/-! ## Lookup -/

namespace pbody.Decoder

variable {R O : Type}

theorem findCodec_eq_loop (h : Heap (Codec R O)) (d : Decoder) (M : MediaType) :
    d.findCodec h M = findCodecLoop M (registry h d) := by
  unfold findCodec registry snapshot Load
  cases d.codecsPtr <;> simp [findCodecLoop]

theorem findCodecLoop_none_iff (M : MediaType) (L : List (Codec R O)) :
    (findCodecLoop M L).1 = none ↔ ∀ c ∈ L, c.DetectFn M = false := by
  induction L with
  | nil => simp [findCodecLoop]
  | cons c rest ih =>
    by_cases hc : c.DetectFn M = true
    · simp [findCodecLoop, hc]
    · simp only [Bool.not_eq_true] at hc
      simp [findCodecLoop, hc, ih]

theorem findCodecLoop_miss (M : MediaType) (L : List (Codec R O))
    (hL : ∀ c ∈ L, c.DetectFn M = false) :
    findCodecLoop M L = (none, L.map fun c => Call.DetectFn c M) := by
  induction L with
  | nil => simp [findCodecLoop]
  | cons c rest ih =>
    have hc : c.DetectFn M = false := hL c (List.mem_cons_self _ _)
    have hr := ih fun x hx => hL x (List.mem_cons_of_mem _ hx)
    simp [findCodecLoop, hc, hr]

theorem findCodecLoop_hit (M : MediaType) (pre : List (Codec R O)) (C : Codec R O)
    (post : List (Codec R O)) (hpre : ∀ c ∈ pre, c.DetectFn M = false)
    (hC : C.DetectFn M = true) :
    findCodecLoop M (pre ++ C :: post)
      = (some C, pre.map (fun c => Call.DetectFn c M) ++ [Call.DetectFn C M]) := by
  induction pre with
  | nil => simp [findCodecLoop, hC]
  | cons c rest ih =>
    have hc : c.DetectFn M = false := hpre c (List.mem_cons_self _ _)
    have hr := ih fun x hx => hpre x (List.mem_cons_of_mem _ hx)
    simp [findCodecLoop, hc, hr]

theorem findCodecLoop_index (M : MediaType) (L : List (Codec R O)) (i : Nat)
    (hi : i < L.length) (hit : (L.get ⟨i, hi⟩).DetectFn M = true)
    (hmin : ∀ j (hj : j < i), (L.get ⟨j, Nat.lt_trans hj hi⟩).DetectFn M = false) :
    (findCodecLoop M L).1 = some (L.get ⟨i, hi⟩) := by
  induction L generalizing i with
  | nil => simp at hi
  | cons c rest ih =>
    cases i with
    | zero =>
      simp only [List.get_eq_getElem, List.getElem_cons_zero] at hit
      simp [findCodecLoop, hit]
    | succ k =>
      have hc : c.DetectFn M = false := by
        simpa using hmin 0 (Nat.succ_pos k)
      have hk : k < rest.length := by simpa using hi
      have := ih k hk (by simpa using hit) (fun j hj => by
        simpa using hmin (j + 1) (Nat.succ_lt_succ hj))
      simpa [findCodecLoop, hc] using this

end pbody.Decoder

/-! ## Comparison with a newly allocated `MaxBytesError` -/

mutual
theorem errors.is_maxBytesError_of_lt :
    ∀ (err : GoError) (a : Nat) (l : Int), err.maxAddr < a →
      errors.is err (.maxBytesError a l) = false
  | .wrapError _ e, a, l, h => by
      simp only [errors.is, GoError.identical, Bool.false_or]
      exact errors.is_maxBytesError_of_lt e a l (by simpa [GoError.maxAddr] using h)
  | .joinError es, a, l, h => by
      simp only [errors.is, GoError.identical, Bool.false_or]
      exact errors.isAny_maxBytesError_of_lt es a l (by simpa [GoError.maxAddr] using h)
  | .sentinel _ _, _, _, _ => by simp [errors.is, GoError.identical]
  | .errorString _, _, _, _ => by simp [errors.is, GoError.identical]
  | .syntaxError _ _, _, _, _ => by simp [errors.is, GoError.identical]
  | .unmarshalTypeError _ _ _ _ _, _, _, _ => by simp [errors.is, GoError.identical]
  | .maxBytesError b _, a, _, h => by
      simp only [GoError.maxAddr] at h
      simp only [errors.is, GoError.identical, beq_eq_false_iff_ne, ne_eq]
      omega
theorem errors.isAny_maxBytesError_of_lt :
    ∀ (errs : List GoError) (a : Nat) (l : Int), GoError.maxAddrList errs < a →
      errors.isAny errs (.maxBytesError a l) = false
  | [], _, _, _ => by simp [errors.isAny]
  | e :: es, a, l, h => by
      simp only [GoError.maxAddrList, max_lt_iff] at h
      simp only [errors.isAny, Bool.or_eq_false_iff]
      exact ⟨errors.is_maxBytesError_of_lt e a l h.1,
        errors.isAny_maxBytesError_of_lt es a l h.2⟩
end

/-- No error is the `MaxBytesError` allocated after it. -/
theorem errors.Is_fresh_maxBytesError (err : GoError) (l : Int) :
    errors.Is (some err) (.maxBytesError (freshAddr err) l) = false :=
  errors.is_maxBytesError_of_lt err _ l (Nat.lt_succ_self _)

/-! ## The branches of `Decode` -/

namespace pbody.Decoder

variable {R O : Type}

theorem Decode_of_missing (ext : Externals) (h : Heap (Codec R O)) (d : Decoder) (r : Request)
    (body : R) (out : O)
    (hmissing : r.HeaderValues "Content-Type" = []
      ∨ (r.HeaderValues "Content-Type").head? = some "") :
    d.Decode ext h r body out
      = (some (.joinError [herr.ErrBadRequest, ErrMissingContentType]), []) := by
  unfold Decode
  rcases hmissing with h0 | h0
  · simp [h0, errors.Join]
  · cases hv : r.HeaderValues "Content-Type" with
    | nil => simp [errors.Join]
    | cons v rest =>
      rw [hv] at h0
      simp only [List.head?_cons, Option.some.injEq] at h0
      simp [h0, errors.Join]

theorem Decode_of_parse_error (ext : Externals) (h : Heap (Codec R O)) (d : Decoder)
    (r : Request) (body : R) (out : O) (v : String) (rest : List String) (e : GoError)
    (hv : r.HeaderValues "Content-Type" = v :: rest) (hne : v ≠ "")
    (hparse : ext.ParseMediaType v = .error e) :
    d.Decode ext h r body out
      = (some (.joinError [herr.ErrUnsupportedMediaType,
          .wrapError (ext.Quote v ++ ": " ++ e.Error) e]), [Call.ParseMediaType v]) := by
  unfold Decode
  simp [hv, hne, hparse, errors.Join]

theorem Decode_of_miss (ext : Externals) (h : Heap (Codec R O)) (d : Decoder)
    (r : Request) (body : R) (out : O) (v : String) (rest : List String) (M : MediaType)
    (hv : r.HeaderValues "Content-Type" = v :: rest) (hne : v ≠ "")
    (hparse : ext.ParseMediaType v = .ok M) (hfind : (d.findCodec h M).1 = none) :
    d.Decode ext h r body out
      = (some (.joinError [herr.ErrUnsupportedMediaType,
          .wrapError (ext.Quote (ext.MediaTypeString M) ++ ": " ++ ErrUnsupportedMediaType.Error)
            ErrUnsupportedMediaType]),
        Call.ParseMediaType v :: (d.findCodec h M).2) := by
  unfold Decode
  simp only [hv, hne, hparse, if_false]
  cases hf : d.findCodec h M with
  | mk found log =>
    rw [hf] at hfind
    simp only at hfind
    subst hfind
    simp [errors.Join]

theorem Decode_of_hit (ext : Externals) (h : Heap (Codec R O)) (d : Decoder)
    (r : Request) (body : R) (out : O) (v : String) (rest : List String) (M : MediaType)
    (C : Codec R O)
    (hv : r.HeaderValues "Content-Type" = v :: rest) (hne : v ≠ "")
    (hparse : ext.ParseMediaType v = .ok M) (hfind : (d.findCodec h M).1 = some C) :
    d.Decode ext h r body out
      = (C.DecodeFn body M out,
        Call.ParseMediaType v :: (d.findCodec h M).2 ++ [Call.DecodeFn C body M out]) := by
  unfold Decode
  simp only [hv, hne, hparse, if_false]
  cases hf : d.findCodec h M with
  | mk found log =>
    rw [hf] at hfind
    simp only at hfind
    subst hfind
    cases hdec : C.DecodeFn body M out with
    | none => simp [hdec]
    | some err => simp [hdec, errors.Is_fresh_maxBytesError]

end pbody.Decoder

/-! ## Dispatch -/


namespace pbody.Decoder

variable {R O : Type}

/-- What `Decode` returns depends on the heap and the decoder only through the registry
that the lookup loads. -/
theorem Decode_congr (ext : Externals) (h2 h : Heap (Codec R O)) (d2 d : Decoder)
    (hreg : registry h2 d2 = registry h d) (r : Request) (body : R) (out : O) :
    d2.Decode ext h2 r body out = d.Decode ext h r body out := by
  cases hv : r.HeaderValues "Content-Type" with
  | nil =>
    rw [Decode_of_missing ext h2 d2 r body out (Or.inl hv),
      Decode_of_missing ext h d r body out (Or.inl hv)]
  | cons v rest =>
    by_cases hne : v = ""
    · have hm : (r.HeaderValues "Content-Type").head? = some "" := by simp [hv, hne]
      rw [Decode_of_missing ext h2 d2 r body out (Or.inr hm),
        Decode_of_missing ext h d r body out (Or.inr hm)]
    · cases hp : ext.ParseMediaType v with
      | error e =>
        rw [Decode_of_parse_error ext h2 d2 r body out v rest e hv hne hp,
          Decode_of_parse_error ext h d r body out v rest e hv hne hp]
      | ok M =>
        have hfc : d2.findCodec h2 M = d.findCodec h M := by
          rw [findCodec_eq_loop, findCodec_eq_loop, hreg]
        cases hf : (d.findCodec h M).1 with
        | none =>
          rw [Decode_of_miss ext h2 d2 r body out v rest M hv hne hp (by rw [hfc, hf]),
            Decode_of_miss ext h d r body out v rest M hv hne hp hf, hfc]
        | some C =>
          rw [Decode_of_hit ext h2 d2 r body out v rest M C hv hne hp (by rw [hfc, hf]),
            Decode_of_hit ext h d r body out v rest M C hv hne hp hf, hfc]

/-- C1. First-registered-wins dispatch.  With `L` the registry that a lookup loads (empty
when the pointer is nil) and `M` a media type: (1) `findCodec` returns the codec at the
smallest index whose `DetectFn` accepts `M`; (2) it reports not-found exactly when no
registered codec accepts `M`, in particular for a decoder nothing was registered with;
(3) when the content type of a request parses to `M` and `C1` is the first codec of the
registry accepting `M`, `Decode` calls the parser, the `DetectFn` of the codecs up to
`C1` and then `C1.DecodeFn`, and nothing else: no codec registered behind `C1` is called,
whether it accepts `M` or not; (4) what `findCodec` and `Decode` return depends on the
heap and the decoder only through the registry loaded. -/
theorem findCodec_first_registered_wins (ext : Externals) (h : Heap (Codec R O))
    (d : Decoder) (M : MediaType) :
    (∀ (i : Nat) (hi : i < (registry h d).length),
        ((registry h d).get ⟨i, hi⟩).DetectFn M = true →
        (∀ (j : Nat) (hj : j < i),
          ((registry h d).get ⟨j, Nat.lt_trans hj hi⟩).DetectFn M = false) →
        (d.findCodec h M).1 = some ((registry h d).get ⟨i, hi⟩))
    ∧ ((d.findCodec h M).1 = none ↔ ∀ c ∈ registry h d, c.DetectFn M = false)
    ∧ (d.codecsPtr = none → (d.findCodec h M).1 = none)
    ∧ (∀ (r : Request) (body : R) (out : O) (v : String) (rest : List String)
        (pre post : List (Codec R O)) (C1 : Codec R O),
        r.HeaderValues "Content-Type" = v :: rest → v ≠ "" →
        ext.ParseMediaType v = .ok M →
        registry h d = pre ++ C1 :: post →
        (∀ c ∈ pre, c.DetectFn M = false) → C1.DetectFn M = true →
        (d.findCodec h M).1 = some C1
        ∧ (d.Decode ext h r body out).2
          = Call.ParseMediaType v :: pre.map (fun c => Call.DetectFn c M)
              ++ [Call.DetectFn C1 M, Call.DecodeFn C1 body M out])
    ∧ (∀ (h2 : Heap (Codec R O)) (d2 : Decoder), registry h2 d2 = registry h d →
        d2.findCodec h2 M = d.findCodec h M
        ∧ ∀ (r : Request) (body : R) (out : O),
            d2.Decode ext h2 r body out = d.Decode ext h r body out) := by
  refine ⟨?_, ?_, ?_, ?_, ?_⟩
  · intro i hi hit hmin
    rw [findCodec_eq_loop]
    exact findCodecLoop_index M _ i hi hit hmin
  · rw [findCodec_eq_loop]
    exact findCodecLoop_none_iff M _
  · intro hnil
    simp [findCodec, Load, hnil]
  · intro r body out v rest pre post C1 hv hne hparse hL hpre hC
    have hfind : d.findCodec h M
        = (some C1, pre.map (fun c => Call.DetectFn c M) ++ [Call.DetectFn C1 M]) := by
      rw [findCodec_eq_loop, hL]
      exact findCodecLoop_hit M pre C1 post hpre hC
    have h1 : (d.findCodec h M).1 = some C1 := by rw [hfind]
    refine ⟨h1, ?_⟩
    rw [Decode_of_hit ext h d r body out v rest M C1 hv hne hparse h1, hfind]
    simp
  · intro h2 d2 hreg
    refine ⟨?_, fun r body out => Decode_congr ext h2 h d2 d hreg r body out⟩
    rw [findCodec_eq_loop, findCodec_eq_loop, hreg]

end pbody.Decoder

namespace pbody.Decoder

/-- An instance of C1: two codecs that both accept `application/json`, registered one after
the other; the lookup returns the first, and `Decode` calls the parser, the first codec's
`DetectFn` and the first codec's `DecodeFn`. -/
theorem findCodec_first_registered_wins_witness :
    ((Sample.setup [Sample.codec "json" none, Sample.codec "json" (some io.EOF)]).2.findCodec
        (Sample.setup [Sample.codec "json" none, Sample.codec "json" (some io.EOF)]).1
        Sample.appJson).1 = some (Sample.codec "json" none)
    ∧ ((Sample.setup [Sample.codec "json" none, Sample.codec "json" (some io.EOF)]).2.Decode
        Sample.ext (Sample.setup [Sample.codec "json" none, Sample.codec "json" (some io.EOF)]).1
        (Sample.request ["application/json"]) () ()).2
      = [Call.ParseMediaType "application/json",
          Call.DetectFn (Sample.codec "json" none) Sample.appJson,
          Call.DecodeFn (Sample.codec "json" none) () Sample.appJson ()] :=
  (findCodec_first_registered_wins Sample.ext
      (Sample.setup [Sample.codec "json" none, Sample.codec "json" (some io.EOF)]).1
      (Sample.setup [Sample.codec "json" none, Sample.codec "json" (some io.EOF)]).2
      Sample.appJson).2.2.2.1
    (Sample.request ["application/json"]) () () "application/json" [] []
    [Sample.codec "json" (some io.EOF)] (Sample.codec "json" none)
    rfl (by decide) rfl rfl (by simp) rfl

end pbody.Decoder

/-! ## Facts about `errors.Is` -/

theorem errors.is_sentinel_self (name text : String) :
    errors.is (.sentinel name text) (.sentinel name text) = true := by
  simp [errors.is, GoError.identical]

theorem errors.isAny_of_mem (errs : List GoError) (e target : GoError) (hmem : e ∈ errs)
    (he : errors.is e target = true) : errors.isAny errs target = true := by
  induction errs with
  | nil => simp at hmem
  | cons x xs ih =>
    rcases List.mem_cons.1 hmem with rfl | hx
    · simp [errors.isAny, he]
    · simp [errors.isAny, ih hx]

/-- An error joined by `errors.Join` matches every target that one of its parts matches. -/
theorem errors.is_joinError_of_mem (errs : List GoError) (e target : GoError) (hmem : e ∈ errs)
    (he : errors.is e target = true) : errors.is (.joinError errs) target = true := by
  simp [errors.is, errors.isAny_of_mem errs e target hmem he]

/-- An error built by `fmt.Errorf` with `%w` matches every target the wrapped error matches. -/
theorem errors.is_wrapError_of (msg : String) (e target : GoError)
    (he : errors.is e target = true) : errors.is (.wrapError msg e) target = true := by
  simp [errors.is, he]

/-! ## The error results of `Decode` -/

namespace pbody.Decoder

variable {R O : Type}

theorem findCodecLoop_log_isDetectFn (M : MediaType) (L : List (Codec R O)) :
    ∀ c ∈ (findCodecLoop M L).2, c.isDetectFn = true := by
  induction L with
  | nil => simp [findCodecLoop]
  | cons c rest ih =>
    by_cases hc : c.DetectFn M = true
    · simp [findCodecLoop, hc, Call.isDetectFn]
    · simp only [Bool.not_eq_true] at hc
      simpa [findCodecLoop, hc, Call.isDetectFn] using ih

theorem findCodec_log_filter_isDecodeFn (h : Heap (Codec R O)) (d : Decoder) (M : MediaType) :
    (d.findCodec h M).2.filter Call.isDecodeFn = [] := by
  rw [findCodec_eq_loop, List.filter_eq_nil_iff]
  intro c hc
  have := findCodecLoop_log_isDetectFn M _ c hc
  cases c <;> simp_all [Call.isDetectFn, Call.isDecodeFn]

/-- C2. Lookup miss.  When the first `Content-Type` value of the request is not empty and
parses to `M`, and no codec of the registry accepts `M` (as when the registry is empty),
`Decode` returns a non-nil error for which `errors.Is` holds with both
`herr.ErrUnsupportedMediaType` and `pbody.ErrUnsupportedMediaType`, and it calls no
codec's `DecodeFn`. -/
theorem Decode_lookup_miss (ext : Externals) (h : Heap (Codec R O)) (d : Decoder)
    (r : Request) (body : R) (out : O) (v : String) (rest : List String) (M : MediaType)
    (hv : r.HeaderValues "Content-Type" = v :: rest) (hne : v ≠ "")
    (hparse : ext.ParseMediaType v = .ok M)
    (hmiss : ∀ c ∈ registry h d, c.DetectFn M = false) :
    (d.Decode ext h r body out).1 ≠ none
    ∧ errors.Is (d.Decode ext h r body out).1 herr.ErrUnsupportedMediaType = true
    ∧ errors.Is (d.Decode ext h r body out).1 pbody.ErrUnsupportedMediaType = true
    ∧ (d.Decode ext h r body out).2.filter Call.isDecodeFn = [] := by
  have hfind : (d.findCodec h M).1 = none := by
    rw [findCodec_eq_loop]
    exact (findCodecLoop_none_iff M _).2 hmiss
  rw [Decode_of_miss ext h d r body out v rest M hv hne hparse hfind]
  refine ⟨by simp, ?_, ?_, ?_⟩
  · exact errors.is_joinError_of_mem _ _ _ (List.mem_cons_self _ _)
      (errors.is_sentinel_self _ _)
  · exact errors.is_joinError_of_mem _ _ _ (List.mem_cons_of_mem _ (List.mem_cons_self _ _))
      (errors.is_wrapError_of _ _ _ (errors.is_sentinel_self _ _))
  simp [List.filter_cons, Call.isDecodeFn, findCodec_log_filter_isDecodeFn]

/-- An instance of C2: `application/x-tar` with a registry of a JSON codec and a form
codec. -/
theorem Decode_lookup_miss_witness :
    ((Sample.setup [Sample.codec "json" none, Sample.codec "x-www-form-urlencoded" none]).2.Decode
        Sample.ext
        (Sample.setup [Sample.codec "json" none, Sample.codec "x-www-form-urlencoded" none]).1
        (Sample.request ["application/x-tar"]) () ()).1 ≠ none
    ∧ errors.Is
        ((Sample.setup [Sample.codec "json" none,
            Sample.codec "x-www-form-urlencoded" none]).2.Decode
          Sample.ext
          (Sample.setup [Sample.codec "json" none, Sample.codec "x-www-form-urlencoded" none]).1
          (Sample.request ["application/x-tar"]) () ()).1
        pbody.ErrUnsupportedMediaType = true :=
  have key := Decode_lookup_miss Sample.ext
    (Sample.setup [Sample.codec "json" none, Sample.codec "x-www-form-urlencoded" none]).1
    (Sample.setup [Sample.codec "json" none, Sample.codec "x-www-form-urlencoded" none]).2
    (Sample.request ["application/x-tar"]) () () "application/x-tar" []
    ⟨"application", "x-tar", []⟩ rfl (by decide) rfl
    (by
      intro c hc
      have hreg : registry
          (Sample.setup [Sample.codec "json" none, Sample.codec "x-www-form-urlencoded" none]).1
          (Sample.setup [Sample.codec "json" none, Sample.codec "x-www-form-urlencoded" none]).2
          = [Sample.codec "json" none, Sample.codec "x-www-form-urlencoded" none] := rfl
      rw [hreg] at hc
      simp only [List.mem_cons, List.mem_singleton, List.not_mem_nil, or_false] at hc
      rcases hc with rfl | rfl <;> rfl)
  ⟨key.1, key.2.2.1⟩

/-- C3. Missing content type.  When the request has no `Content-Type` value, or its first
one is the empty string, then whatever the registry holds, `Decode` returns an error for
which `errors.Is` holds with both `herr.ErrBadRequest` and `pbody.ErrMissingContentType`,
and it calls neither the media-type parser nor any codec's `DetectFn` or `DecodeFn`. -/
theorem Decode_missing_content_type (ext : Externals) (h : Heap (Codec R O)) (d : Decoder)
    (r : Request) (body : R) (out : O)
    (hmissing : r.HeaderValues "Content-Type" = []
      ∨ (r.HeaderValues "Content-Type").head? = some "") :
    (d.Decode ext h r body out).1 ≠ none
    ∧ errors.Is (d.Decode ext h r body out).1 herr.ErrBadRequest = true
    ∧ errors.Is (d.Decode ext h r body out).1 pbody.ErrMissingContentType = true
    ∧ (d.Decode ext h r body out).2 = [] := by
  rw [Decode_of_missing ext h d r body out hmissing]
  refine ⟨by simp, ?_, ?_, rfl⟩
  · exact errors.is_joinError_of_mem _ _ _ (List.mem_cons_self _ _)
      (errors.is_sentinel_self _ _)
  · exact errors.is_joinError_of_mem _ _ _ (List.mem_cons_of_mem _ (List.mem_cons_self _ _))
      (errors.is_sentinel_self _ _)

/-- An instance of C3: a request without headers, and a registry holding a JSON codec. -/
theorem Decode_missing_content_type_witness :
    errors.Is ((Sample.setup [Sample.codec "json" none]).2.Decode Sample.ext
        (Sample.setup [Sample.codec "json" none]).1 (Sample.request []) () ()).1
      pbody.ErrMissingContentType = true
    ∧ ((Sample.setup [Sample.codec "json" none]).2.Decode Sample.ext
        (Sample.setup [Sample.codec "json" none]).1 (Sample.request []) () ()).2 = [] :=
  have key := Decode_missing_content_type Sample.ext (Sample.setup [Sample.codec "json" none]).1
    (Sample.setup [Sample.codec "json" none]).2 (Sample.request []) () () (Or.inl rfl)
  ⟨key.2.2.1, key.2.2.2⟩

end pbody.Decoder

namespace pbody.Decoder

variable {R O : Type}

/-- C4. Unparsable content type.  When the first `Content-Type` value of the request is not
empty and the media-type parser rejects it with the error `e`, then whatever the registry
holds, `Decode` returns an error for which `errors.Is` holds with
`herr.ErrUnsupportedMediaType` and which wraps `e`: it is the join of
`herr.ErrUnsupportedMediaType` with an error whose `Unwrap` is `e`, so `errors.Is` holds
for every target for which it holds on `e`, such as `contenttype.ErrInvalidMediaType`
when `e` is that error.  The parser is the only thing called: no codec is consulted. -/
theorem Decode_unparsable_content_type (ext : Externals) (h : Heap (Codec R O)) (d : Decoder)
    (r : Request) (body : R) (out : O) (v : String) (rest : List String) (e : GoError)
    (hv : r.HeaderValues "Content-Type" = v :: rest) (hne : v ≠ "")
    (hparse : ext.ParseMediaType v = .error e) :
    errors.Is (d.Decode ext h r body out).1 herr.ErrUnsupportedMediaType = true
    ∧ (∃ msg, (d.Decode ext h r body out).1
        = some (.joinError [herr.ErrUnsupportedMediaType, .wrapError msg e]))
    ∧ (∀ target, errors.Is (some e) target = true →
        errors.Is (d.Decode ext h r body out).1 target = true)
    ∧ (e = contenttype.ErrInvalidMediaType →
        errors.Is (d.Decode ext h r body out).1 contenttype.ErrInvalidMediaType = true)
    ∧ (d.Decode ext h r body out).2 = [Call.ParseMediaType v] := by
  rw [Decode_of_parse_error ext h d r body out v rest e hv hne hparse]
  have hwrap : ∀ target, errors.Is (some e) target = true →
      errors.Is (some (GoError.joinError [herr.ErrUnsupportedMediaType,
        .wrapError (ext.Quote v ++ ": " ++ e.Error) e])) target = true := fun target ht =>
    errors.is_joinError_of_mem _ _ _ (List.mem_cons_of_mem _ (List.mem_cons_self _ _))
      (errors.is_wrapError_of _ _ _ ht)
  refine ⟨?_, ⟨_, rfl⟩, hwrap, ?_, rfl⟩
  · exact errors.is_joinError_of_mem _ _ _ (List.mem_cons_self _ _)
      (errors.is_sentinel_self _ _)
  · intro he
    exact hwrap _ (by rw [he]; exact errors.is_sentinel_self _ _)

/-- An instance of C4: the content type `asd`. -/
theorem Decode_unparsable_content_type_witness :
    errors.Is ((Sample.setup [Sample.codec "json" none]).2.Decode Sample.ext
        (Sample.setup [Sample.codec "json" none]).1 (Sample.request ["asd"]) () ()).1
      herr.ErrUnsupportedMediaType = true
    ∧ errors.Is ((Sample.setup [Sample.codec "json" none]).2.Decode Sample.ext
        (Sample.setup [Sample.codec "json" none]).1 (Sample.request ["asd"]) () ()).1
      contenttype.ErrInvalidMediaType = true
    ∧ ((Sample.setup [Sample.codec "json" none]).2.Decode Sample.ext
        (Sample.setup [Sample.codec "json" none]).1 (Sample.request ["asd"]) () ()).2
      = [Call.ParseMediaType "asd"] :=
  have key := Decode_unparsable_content_type Sample.ext
    (Sample.setup [Sample.codec "json" none]).1 (Sample.setup [Sample.codec "json" none]).2
    (Sample.request ["asd"]) () () "asd" [] contenttype.ErrInvalidMediaType rfl (by decide) rfl
  ⟨key.1, key.2.2.2.1 rfl, key.2.2.2.2⟩

/-- C5, on the code.  A codec whose `DecodeFn` returns the `*http.MaxBytesError` of a
size-limited body (here with limit 1024), or that error wrapped by `fmt.Errorf` with
`%w`: `Decode` returns the codec's error as it is, `errors.Is` with `herr.ErrTooLarge`
does not hold for it.  The same with the bundled JSON codec when the decoder of
`encoding/json` fails with that error: the result is the codec's join of
`herr.ErrBadRequest` with it, not `herr.ErrTooLarge`.  The comparison of line 110 is
false for every error. -/
theorem Decode_size_limit_not_reclassified :
    ((Sample.setup [Sample.codec "json" (some (.maxBytesError 7 1024))]).2.Decode Sample.ext
        (Sample.setup [Sample.codec "json" (some (.maxBytesError 7 1024))]).1
        (Sample.request ["application/json"]) () ()).1 = some (.maxBytesError 7 1024)
    ∧ errors.Is
        ((Sample.setup [Sample.codec "json" (some (.maxBytesError 7 1024))]).2.Decode Sample.ext
          (Sample.setup [Sample.codec "json" (some (.maxBytesError 7 1024))]).1
          (Sample.request ["application/json"]) () ()).1 herr.ErrTooLarge = false
    ∧ errors.Is
        ((Sample.setup [Sample.codec "json"
            (some (.wrapError "read: http: request body too large"
              (.maxBytesError 7 1024)))]).2.Decode Sample.ext
          (Sample.setup [Sample.codec "json"
            (some (.wrapError "read: http: request body too large"
              (.maxBytesError 7 1024)))]).1
          (Sample.request ["application/json"]) () ()).1 herr.ErrTooLarge = false
    ∧ ((Sample.setup [json.Codec Sample.ext
            (Sample.js (some (.maxBytesError 7 1024)) none)]).2.Decode Sample.ext
          (Sample.setup [json.Codec Sample.ext
            (Sample.js (some (.maxBytesError 7 1024)) none)]).1
          (Sample.request ["application/json"]) () ()).1
        = some (.joinError [herr.ErrBadRequest, .maxBytesError 7 1024])
    ∧ errors.Is (some (.joinError [herr.ErrBadRequest, .maxBytesError 7 1024]))
        herr.ErrTooLarge = false
    ∧ ∀ err : GoError, errors.Is (some err) (.maxBytesError (freshAddr err) 0) = false :=
  ⟨rfl, rfl, rfl, rfl, rfl, fun err => errors.Is_fresh_maxBytesError err 0⟩

/-- C6. Pass-through of codec results.  When the first `Content-Type` value of the request
is not empty and parses to `M`, and the lookup returns the codec `C`: `Decode` calls
`C.DecodeFn` once, as its last call, with the caller's body, `M` and the caller's
destination, and no other `DecodeFn`; it returns nil exactly when that call returns nil;
and when the call returns an error `e` with no `*http.MaxBytesError` in its chain,
`Decode` returns `e` itself. -/
theorem Decode_pass_through (ext : Externals) (h : Heap (Codec R O)) (d : Decoder)
    (r : Request) (body : R) (out : O) (v : String) (rest : List String) (M : MediaType)
    (C : Codec R O)
    (hv : r.HeaderValues "Content-Type" = v :: rest) (hne : v ≠ "")
    (hparse : ext.ParseMediaType v = .ok M) (hfind : (d.findCodec h M).1 = some C) :
    (d.Decode ext h r body out).2
        = Call.ParseMediaType v :: (d.findCodec h M).2 ++ [Call.DecodeFn C body M out]
    ∧ (d.Decode ext h r body out).2.filter Call.isDecodeFn = [Call.DecodeFn C body M out]
    ∧ ((d.Decode ext h r body out).1 = none ↔ C.DecodeFn body M out = none)
    ∧ (∀ e, C.DecodeFn body M out = some e → errors.as isMaxBytesError e = none →
        (d.Decode ext h r body out).1 = some e) := by
  rw [Decode_of_hit ext h d r body out v rest M C hv hne hparse hfind]
  refine ⟨rfl, ?_, Iff.rfl, fun e he _ => he⟩
  simp [List.filter_cons, Call.isDecodeFn, findCodec_log_filter_isDecodeFn]

/-- An instance of C6: a JSON codec whose `DecodeFn` fails with `io.ErrUnexpectedEOF`. -/
theorem Decode_pass_through_witness :
    ((Sample.setup [Sample.codec "json" (some io.ErrUnexpectedEOF)]).2.Decode Sample.ext
        (Sample.setup [Sample.codec "json" (some io.ErrUnexpectedEOF)]).1
        (Sample.request ["application/json"]) () ()).1 = some io.ErrUnexpectedEOF
    ∧ ((Sample.setup [Sample.codec "json" (some io.ErrUnexpectedEOF)]).2.Decode Sample.ext
        (Sample.setup [Sample.codec "json" (some io.ErrUnexpectedEOF)]).1
        (Sample.request ["application/json"]) () ()).2.filter Call.isDecodeFn
      = [Call.DecodeFn (Sample.codec "json" (some io.ErrUnexpectedEOF)) () Sample.appJson ()] :=
  have key := Decode_pass_through Sample.ext
    (Sample.setup [Sample.codec "json" (some io.ErrUnexpectedEOF)]).1
    (Sample.setup [Sample.codec "json" (some io.ErrUnexpectedEOF)]).2
    (Sample.request ["application/json"]) () () "application/json" [] Sample.appJson
    (Sample.codec "json" (some io.ErrUnexpectedEOF)) rfl (by decide) rfl rfl
  ⟨key.2.2.2 io.ErrUnexpectedEOF rfl rfl, key.2.1⟩

end pbody.Decoder

/-! ## Registration -/

namespace Heap

variable {α : Type}

theorem read_newCell (h : Heap α) (s : Slice) :
    (h.newCell s).1.read (h.newCell s).2 = h.elems s := by
  simp [newCell, read, deref, elems, List.getD_eq_getElem?_getD]

theorem deref_newCell (h : Heap α) (s : Slice) :
    (h.newCell s).1.deref (h.newCell s).2 = s := by
  simp [newCell, deref, List.getD_eq_getElem?_getD]

theorem elems_literal (h : Heap α) (x : α) :
    (h.literal x).1.elems (h.literal x).2 = [x] := by
  simp [literal, elems, List.getD_eq_getElem?_getD]

theorem elems_append (h : Heap α) (s : Slice) (x : α) (harr : s.array < h.arrays.length) :
    (h.append s x).1.elems (h.append s x).2 = h.elems s ++ [x] := by
  unfold append
  split
  · simp only [elems, List.getD_eq_getElem?_getD, List.getElem?_set_self harr,
      Option.getD_some, writeSlot]
    rw [List.getElem?_eq_getElem harr, Option.getD_some]
    generalize h.arrays[s.array] = a
    by_cases hlen : s.len ≤ a.length
    · rw [List.take_append_eq_append_take, List.take_take]
      simp [List.length_take, hlen, Nat.min_eq_left (Nat.le_succ _)]
    · have h1 : a.length ≤ s.len := by omega
      rw [List.take_of_length_le h1, List.drop_of_length_le (by omega)]
      rw [List.take_of_length_le (by simp; omega)]
  · simp only [elems, List.getD_eq_getElem?_getD, List.getElem?_concat_length,
      Option.getD_some]
    apply List.take_of_length_le
    simp [List.length_take]

end Heap

namespace pbody.Decoder

variable {R O : Type}

/-- With no other goroutine running, the first `CompareAndSwap` of `Register` succeeds. -/
theorem RegisterLoop_succ (codec : Codec R O) (fuel : Nat) (h : Heap (Codec R O))
    (d : Decoder) :
    RegisterLoop codec (fuel + 1) h d
      = some ((buildRegistry h d.codecsPtr codec).1,
          ⟨some (buildRegistry h d.codecsPtr codec).2⟩) := by
  simp [RegisterLoop, Load, CompareAndSwap]

theorem registry_buildRegistry (codec : Codec R O) (h : Heap (Codec R O)) (d : Decoder)
    (hwf : WellFormed h d) :
    registry (buildRegistry h d.codecsPtr codec).1 ⟨some (buildRegistry h d.codecsPtr codec).2⟩
      = registry h d ++ [codec] := by
  unfold registry snapshot Load
  cases hp : d.codecsPtr with
  | none =>
    simp only [buildRegistry, Option.map_some', Option.getD_some, Option.map_none',
      Option.getD_none, List.nil_append]
    rw [Heap.read_newCell, Heap.elems_literal]
  | some p =>
    simp only [buildRegistry, Option.map_some', Option.getD_some]
    rw [Heap.read_newCell, Heap.elems_append _ _ _ (hwf p hp).2.1]
    rfl

theorem wellFormed_buildRegistry (codec : Codec R O) (h : Heap (Codec R O)) (d : Decoder)
    (hwf : WellFormed h d) :
    WellFormed (buildRegistry h d.codecsPtr codec).1
      ⟨some (buildRegistry h d.codecsPtr codec).2⟩ := by
  intro q hq
  simp only [Option.some.injEq] at hq
  subst hq
  cases hp : d.codecsPtr with
  | none =>
    simp only [buildRegistry]
    rw [Heap.deref_newCell]
    simp [Heap.newCell, Heap.literal, List.getD_eq_getElem?_getD]
  | some p =>
    obtain ⟨-, harr, hlen⟩ := hwf p hp
    simp only [buildRegistry]
    rw [Heap.deref_newCell]
    refine ⟨by simp [Heap.newCell], ?_, ?_⟩
    · unfold Heap.append Heap.newCell
      split <;> simp [harr]
    · unfold Heap.append Heap.newCell
      split
      · simp only [List.getD_eq_getElem?_getD, List.getElem?_set_self harr, Option.getD_some,
          Heap.writeSlot]
        rw [List.getElem?_eq_getElem harr, Option.getD_some]
        rw [List.getD_eq_getElem?_getD, List.getElem?_eq_getElem harr, Option.getD_some] at hlen
        simp [List.length_take, hlen]
      · rw [List.getD_eq_getElem?_getD, List.getElem?_eq_getElem harr, Option.getD_some] at hlen
        simp [Heap.elems, List.getD_eq_getElem?_getD, List.getElem?_eq_getElem harr,
          List.length_take, hlen]

theorem RegisterAll_spec (cs : List (Codec R O)) (h : Heap (Codec R O)) (d : Decoder)
    (hwf : WellFormed h d) :
    ∃ hn dn, RegisterAll 1 cs h d = some (hn, dn) ∧ registry hn dn = registry h d ++ cs
      ∧ WellFormed hn dn := by
  induction cs generalizing h d with
  | nil => exact ⟨h, d, rfl, by simp, hwf⟩
  | cons c cs ih =>
    obtain ⟨hn, dn, hrun, hreg, hwfn⟩ :=
      ih _ _ (wellFormed_buildRegistry c h d hwf)
    refine ⟨hn, dn, ?_, ?_, hwfn⟩
    · simp only [RegisterAll, RegisterLoop_succ]
      exact hrun
    · rw [hreg, registry_buildRegistry c h d hwf]
      simp

theorem wellFormed_zero (h : Heap (Codec R O)) : WellFormed h ⟨none⟩ := by
  intro p hp
  simp at hp

/-- A single goroutine that runs `Register` alone takes three steps, the ones of one
iteration of the loop. -/
theorem System.run_solo (codec : Codec R O) (h : Heap (Codec R O)) (d : Decoder) :
    RegisterLoop codec 1 h d
        = some ((System.run ⟨h, d, [Goroutine.start codec]⟩ [0, 0, 0]).heap,
            (System.run ⟨h, d, [Goroutine.start codec]⟩ [0, 0, 0]).decoder)
    ∧ (System.run ⟨h, d, [Goroutine.start codec]⟩ [0, 0, 0]).allDone = true := by
  simp [System.run, System.step, Goroutine.step, Goroutine.start, RegisterLoop_succ, Load,
    CompareAndSwap, System.allDone]

/-- C7. `Register` appends.  The zero-value `Decoder` has an empty registry.  From a
well-formed state with registry `L` and with no other goroutine running,
`Register(codec)` returns after one iteration of its loop (one iteration is enough, and
more allowed iterations change nothing) and leaves the registry `L` followed by `codec`.
Hence the calls `Register(c1)`, ..., `Register(cn)` on a zero-value decoder leave the
registry `[c1, ..., cn]`, and from any well-formed state they leave the old registry
followed by `c1, ..., cn`: the old registry stays as a prefix, nothing is removed,
reordered or replaced. -/
theorem Register_appends (h : Heap (Codec R O)) (d : Decoder) (codec : Codec R O)
    (cs : List (Codec R O)) (hwf : WellFormed h d) :
    (∀ h0 : Heap (Codec R O), registry h0 ⟨none⟩ = [])
    ∧ (∃ h1 d1, RegisterLoop codec 1 h d = some (h1, d1)
        ∧ (∀ fuel, RegisterLoop codec (fuel + 1) h d = some (h1, d1))
        ∧ registry h1 d1 = registry h d ++ [codec]
        ∧ WellFormed h1 d1)
    ∧ (∃ hn dn, RegisterAll 1 cs Heap.empty ⟨none⟩ = some (hn, dn) ∧ registry hn dn = cs)
    ∧ (∃ hn dn, RegisterAll 1 cs h d = some (hn, dn)
        ∧ registry hn dn = registry h d ++ cs
        ∧ registry h d <+: registry hn dn
        ∧ (registry h d).length ≤ (registry hn dn).length) := by
  refine ⟨fun h0 => rfl, ?_, ?_, ?_⟩
  · exact ⟨_, _, RegisterLoop_succ codec 0 h d, fun fuel => RegisterLoop_succ codec fuel h d,
      registry_buildRegistry codec h d hwf, wellFormed_buildRegistry codec h d hwf⟩
  · obtain ⟨hn, dn, hrun, hreg, -⟩ := RegisterAll_spec cs Heap.empty ⟨none⟩ (wellFormed_zero _)
    exact ⟨hn, dn, hrun, by simpa [registry, snapshot, Load] using hreg⟩
  · obtain ⟨hn, dn, hrun, hreg, -⟩ := RegisterAll_spec cs h d hwf
    refine ⟨hn, dn, hrun, hreg, ?_, ?_⟩
    · rw [hreg]; exact List.prefix_append _ _
    · rw [hreg]; simp

end pbody.Decoder

namespace pbody

/-- C8, on the code.  A decoder with three codecs registered (its slice has length 3 and
capacity 4) and two goroutines in `Register(a)` and `Register(b)`.  Both load the same
registry; the first appends `a` and swaps its pointer in; the second appends `b`, which
`append` writes into the same array slot; its swap fails, it loads again, appends `b`
and swaps.  Both calls have returned, and the registry is `c1, c2, c3, b, b`: `b` twice,
`a` nowhere, so a lookup of the media type of `a` finds nothing.  The registry
`c1, c2, c3, a` that a lookup could load after the first swap is not a prefix of the
final one, and the slice it loaded reads `c1, c2, c3, b` one step later. -/
theorem Register_concurrent_lost_update :
    Decoder.registry Sample.racing.heap Sample.racing.decoder
        = [Sample.codec "c1" none, Sample.codec "c2" none, Sample.codec "c3" none]
    ∧ Decoder.registry (Sample.racing.run [0, 1, 0, 0]).heap
          (Sample.racing.run [0, 1, 0, 0]).decoder
        = [Sample.codec "c1" none, Sample.codec "c2" none, Sample.codec "c3" none,
            Sample.codec "a" none]
    ∧ Decoder.registry (Sample.racing.run [0, 1, 0, 0, 1]).heap
          (Sample.racing.run [0, 1, 0, 0]).decoder
        = [Sample.codec "c1" none, Sample.codec "c2" none, Sample.codec "c3" none,
            Sample.codec "b" none]
    ∧ (Sample.racing.run [0, 1, 0, 0, 1, 1, 1, 1, 1]).allDone = true
    ∧ Decoder.registry (Sample.racing.run [0, 1, 0, 0, 1, 1, 1, 1, 1]).heap
          (Sample.racing.run [0, 1, 0, 0, 1, 1, 1, 1, 1]).decoder
        = [Sample.codec "c1" none, Sample.codec "c2" none, Sample.codec "c3" none,
            Sample.codec "b" none, Sample.codec "b" none]
    ∧ ((Sample.racing.run [0, 1, 0, 0, 1, 1, 1, 1, 1]).decoder.findCodec
          (Sample.racing.run [0, 1, 0, 0, 1, 1, 1, 1, 1]).heap (Sample.app "a")).1 = none
    ∧ ((Sample.racing.run [0, 1, 0, 0]).decoder.findCodec
          (Sample.racing.run [0, 1, 0, 0]).heap (Sample.app "a")).1
        = some (Sample.codec "a" none) :=
  ⟨rfl, rfl, rfl, rfl, rfl, rfl, rfl⟩

end pbody

namespace pbody.Decoder

/-- An instance of C7: a fourth `Register` on a decoder whose slice has length 3 and
capacity 4, so that `append` writes into the array in place. -/
theorem Register_appends_witness :
    ∃ h1 d1, RegisterLoop (Sample.codec "c4" none) 1 Sample.racing.heap Sample.racing.decoder
        = some (h1, d1)
      ∧ registry h1 d1
        = [Sample.codec "c1" none, Sample.codec "c2" none, Sample.codec "c3" none,
            Sample.codec "c4" none] :=
  have hwf : WellFormed Sample.racing.heap Sample.racing.decoder := fun p hp => by
    have hp2 : p = 2 := (Option.some.inj hp).symm
    subst hp2
    exact ⟨by decide, by decide, by decide⟩
  have key := (Register_appends Sample.racing.heap Sample.racing.decoder
    (Sample.codec "c4" none) [] hwf).2.1
  key.elim fun h1 hrest => hrest.elim fun d1 hd => ⟨h1, d1, hd.1, hd.2.2.1⟩

end pbody.Decoder

/-! ## The JSON codec -/

mutual
theorem errors.as_ofType (ofType : GoError → Bool) :
    ∀ (err x : GoError), errors.as ofType err = some x → ofType x = true
  | .wrapError msg e, x, h => by
      simp only [errors.as] at h
      split at h
      · cases h; assumption
      · exact errors.as_ofType ofType e x h
  | .joinError es, x, h => by
      simp only [errors.as] at h
      split at h
      · cases h; assumption
      · exact errors.asAny_ofType ofType es x h
  | .sentinel _ _, x, h => by
      simp only [errors.as] at h
      split at h
      · cases h; assumption
      · cases h
  | .errorString _, x, h => by
      simp only [errors.as] at h
      split at h
      · cases h; assumption
      · cases h
  | .syntaxError _ _, x, h => by
      simp only [errors.as] at h
      split at h
      · cases h; assumption
      · cases h
  | .unmarshalTypeError _ _ _ _ _, x, h => by
      simp only [errors.as] at h
      split at h
      · cases h; assumption
      · cases h
  | .maxBytesError _ _, x, h => by
      simp only [errors.as] at h
      split at h
      · cases h; assumption
      · cases h
theorem errors.asAny_ofType (ofType : GoError → Bool) :
    ∀ (errs : List GoError) (x : GoError), errors.asAny ofType errs = some x → ofType x = true
  | [], x, h => by simp [errors.asAny] at h
  | e :: es, x, h => by
      simp only [errors.asAny] at h
      cases he : errors.as ofType e with
      | some found =>
        rw [he] at h
        have hx : found = x := Option.some.inj h
        rw [← hx]
        exact errors.as_ofType ofType e found he
      | none =>
        rw [he] at h
        exact errors.asAny_ofType ofType es x h
end

namespace pbody.json

variable {R O D : Type}

theorem errf_eq (text : String) :
    errf text = some (.joinError [herr.ErrBadRequest, pbody.ErrBadContent, .errorString text]) :=
  rfl

theorem classify_default (ext : Externals) (err : GoError) (hd : reachesDefault err = true) :
    classify ext err = some (.joinError [herr.ErrBadRequest, err]) := by
  simp only [reachesDefault, Bool.and_eq_true, Option.isNone_iff_eq_none, Bool.not_eq_true']
    at hd
  obtain ⟨⟨⟨⟨h1, h2⟩, h3⟩, h4⟩, h5⟩ := hd
  simp [classify, h1, h2, h3, h4, h5, errors.Join]

theorem classify_specific (ext : Externals) (err : GoError) (hd : reachesDefault err = false) :
    ∃ text, classify ext err = errf text := by
  unfold classify
  cases h1 : errors.as isSyntaxError err with
  | some x =>
    have hx := errors.as_ofType _ _ _ h1
    cases x <;> simp [isSyntaxError] at hx
    exact ⟨_, rfl⟩
  | none =>
    simp only
    by_cases h2 : errors.Is (some err) io.ErrUnexpectedEOF = true
    · rw [if_pos h2]; exact ⟨_, rfl⟩
    · rw [if_neg h2]
      cases h3 : errors.as isUnmarshalTypeError err with
      | some x =>
        have hx := errors.as_ofType _ _ _ h3
        cases x <;> simp [isUnmarshalTypeError] at hx
        exact ⟨_, rfl⟩
      | none =>
        simp only
        by_cases h4 : strings.HasPrefix err.Error "json: unknown field " = true
        · rw [if_pos h4]; exact ⟨_, rfl⟩
        · rw [if_neg h4]
          by_cases h5 : errors.Is (some err) io.EOF = true
          · rw [if_pos h5]; exact ⟨_, rfl⟩
          · exfalso
            simp [reachesDefault, h1, h2, h3, h4, h5] at hd

end pbody.json

namespace pbody.json

variable {R O D : Type}

theorem Is_errf_ErrBadRequest (text : String) :
    errors.Is (errf text) herr.ErrBadRequest = true := by
  rw [errf_eq]
  exact errors.is_joinError_of_mem _ _ _ (List.mem_cons_self _ _) (errors.is_sentinel_self _ _)

theorem Is_errf_ErrBadContent (text : String) :
    errors.Is (errf text) pbody.ErrBadContent = true := by
  rw [errf_eq]
  exact errors.is_joinError_of_mem _ _ _ (List.mem_cons_of_mem _ (List.mem_cons_self _ _))
    (errors.is_sentinel_self _ _)

/-- The results of `Decode`: the classification of the first error, or, after a first
document, nil or the error for more than one document. -/
theorem Decode_cases (ext : Externals) (js : EncodingJson R O D) (r : R) (m : MediaType)
    (out : O) :
    (∃ err, (js.Decode (js.DisallowUnknownFields (js.NewDecoder r)) (.out out)).1 = some err
        ∧ Decode ext js r m out = classify ext err)
    ∨ ((js.Decode (js.DisallowUnknownFields (js.NewDecoder r)) (.out out)).1 = none
        ∧ (Decode ext js r m out = none
          ∨ Decode ext js r m out = errf "multiple json objects")) := by
  unfold Decode
  simp only
  generalize js.Decode (js.DisallowUnknownFields (js.NewDecoder r)) (.out out) = first
  obtain ⟨e1, dec1⟩ := first
  cases e1 with
  | some err => exact Or.inl ⟨err, rfl, rfl⟩
  | none =>
    refine Or.inr ⟨rfl, ?_⟩
    simp only
    generalize (js.Decode dec1 DecodeTarget.emptyStruct).1 = second
    cases second with
    | none => exact Or.inr rfl
    | some e2 =>
      simp only
      split
      · exact Or.inl rfl
      · exact Or.inr rfl

/-- C9, as the code has it.  Every error that `json.Decode` returns carries
`pbody.ErrBadContent`, except in the `default` case of its `switch` (the first call of the
decoder failed, and with none of: a syntax error, `io.ErrUnexpectedEOF`, a type mismatch,
an unknown field, `io.EOF`).  In that case the result is the join of
`herr.ErrBadRequest` with the decoder's error, and it carries `pbody.ErrBadContent`
exactly when the decoder's error does. -/
theorem Decode_bad_content_unless_default (ext : Externals) (js : EncodingJson R O D) (r : R)
    (m : MediaType) (out : O) (e : GoError) (he : Decode ext js r m out = some e) :
    (∀ err, (js.Decode (js.DisallowUnknownFields (js.NewDecoder r)) (.out out)).1 = some err →
        reachesDefault err = true →
        e = .joinError [herr.ErrBadRequest, err]
        ∧ errors.Is (some e) pbody.ErrBadContent = errors.Is (some err) pbody.ErrBadContent)
    ∧ ((∀ err, (js.Decode (js.DisallowUnknownFields (js.NewDecoder r)) (.out out)).1 = some err →
          reachesDefault err = false) →
        errors.Is (some e) pbody.ErrBadContent = true) := by
  rcases Decode_cases ext js r m out with ⟨err, hfirst, hres⟩ | ⟨hfirst, hres | hres⟩
  · constructor
    · intro err2 h2 hd
      rw [hfirst] at h2
      cases h2
      rw [hres, classify_default ext err hd] at he
      cases he
      refine ⟨rfl, ?_⟩
      simp [errors.Is, errors.is, errors.isAny, GoError.identical, herr.ErrBadRequest,
        pbody.ErrBadContent]
    · intro hall
      obtain ⟨text, htext⟩ := classify_specific ext err (hall err hfirst)
      rw [← he, hres, htext]
      exact Is_errf_ErrBadContent text
  · rw [hres] at he
    cases he
  · constructor
    · intro err2 h2
      rw [hfirst] at h2
      cases h2
    · intro _
      rw [← he, hres]
      exact Is_errf_ErrBadContent _

/-- An instance of the amended C9: the decoder fails with a syntax error at offset 2. -/
theorem Decode_bad_content_unless_default_witness :
    errors.Is (Decode Sample.ext (Sample.js (some (.syntaxError "invalid character" 2)) none) ()
      Sample.appJson ()) pbody.ErrBadContent = true :=
  (Decode_bad_content_unless_default Sample.ext
      (Sample.js (some (.syntaxError "invalid character" 2)) none) () Sample.appJson ()
      (.joinError [herr.ErrBadRequest, pbody.ErrBadContent,
        .errorString "malformed JSON (at position 2)"]) rfl).2
    (fun err herr => by
      have h2 : GoError.syntaxError "invalid character" 2 = err := Option.some.inj herr
      rw [← h2]
      rfl)

/-- C9 as stated fails: the body is read through `http.MaxBytesReader` and is over the
limit, so the first call of the decoder returns the `*http.MaxBytesError`; `json.Decode`
returns the join of `herr.ErrBadRequest` with it, which does not carry
`pbody.ErrBadContent`. -/
theorem Decode_default_lacks_bad_content :
    Decode Sample.ext (Sample.js (some (.maxBytesError 7 1024)) none) () Sample.appJson ()
        = some (.joinError [herr.ErrBadRequest, .maxBytesError 7 1024])
    ∧ errors.Is (Decode Sample.ext (Sample.js (some (.maxBytesError 7 1024)) none) ()
        Sample.appJson ()) pbody.ErrBadContent = false :=
  ⟨rfl, rfl⟩

/-- C10. Every error that `json.Decode` returns is a Bad Request: `errors.Is` holds for it
with `herr.ErrBadRequest`; in particular so it does for every returned error that carries
`pbody.ErrBadContent`. -/
theorem Decode_error_is_bad_request (ext : Externals) (js : EncodingJson R O D) (r : R)
    (m : MediaType) (out : O) (e : GoError) (he : Decode ext js r m out = some e) :
    errors.Is (some e) herr.ErrBadRequest = true
    ∧ (errors.Is (some e) pbody.ErrBadContent = true →
        errors.Is (some e) herr.ErrBadRequest = true) := by
  have key : errors.Is (some e) herr.ErrBadRequest = true := by
    rcases Decode_cases ext js r m out with ⟨err, -, hres⟩ | ⟨-, hres | hres⟩
    · by_cases hd : reachesDefault err = true
      · rw [hres, classify_default ext err hd] at he
        cases he
        exact errors.is_joinError_of_mem _ _ _ (List.mem_cons_self _ _)
          (errors.is_sentinel_self _ _)
      · simp only [Bool.not_eq_true] at hd
        obtain ⟨text, htext⟩ := classify_specific ext err hd
        rw [← he, hres, htext]
        exact Is_errf_ErrBadRequest text
    · rw [hres] at he
      cases he
    · rw [← he, hres]
      exact Is_errf_ErrBadRequest _
  exact ⟨key, fun _ => key⟩

/-- An instance of C10: a second document behind the first. -/
theorem Decode_error_is_bad_request_witness :
    errors.Is (Decode Sample.ext (Sample.js none none) () Sample.appJson ())
      herr.ErrBadRequest = true :=
  (Decode_error_is_bad_request Sample.ext (Sample.js none none) () Sample.appJson ()
    (.joinError [herr.ErrBadRequest, pbody.ErrBadContent,
      .errorString "multiple json objects"]) rfl).1

end pbody.json

/-! ## Messages -/

namespace strings

theorem containsChars_of_isPrefixOf (substr s : List Char) (h : substr.isPrefixOf s = true) :
    containsChars substr s = true := by
  cases s with
  | nil => simpa [containsChars] using h
  | cons c cs => simp [containsChars, h]

theorem containsChars_append_left (substr a s : List Char)
    (h : containsChars substr s = true) : containsChars substr (a ++ s) = true := by
  induction a with
  | nil => simpa using h
  | cons c cs ih => simp [containsChars, ih]

theorem toList_append (a b : String) : (a ++ b).toList = a.toList ++ b.toList := by
  cases a; cases b; rfl

theorem Contains_self (s : String) : Contains s s = true :=
  containsChars_of_isPrefixOf _ _ (by simp)

/-- A text contains what its last part contains. -/
theorem Contains_append_left (a s substr : String) (h : Contains s substr = true) :
    Contains (a ++ s) substr = true := by
  unfold Contains at *
  rw [toList_append]
  exact containsChars_append_left _ _ _ h

/-- A text contains what its first part starts with. -/
theorem Contains_prefix_append (s t : String) : Contains (s ++ t) s = true := by
  unfold Contains
  rw [toList_append]
  exact containsChars_of_isPrefixOf _ _ (by simp)

theorem HasPrefix_append (pre rest : String) : HasPrefix (pre ++ rest) pre = true := by
  unfold HasPrefix
  rw [toList_append]
  simp

theorem TrimPrefix_append (pre rest : String) : TrimPrefix (pre ++ rest) pre = rest := by
  unfold TrimPrefix
  rw [if_pos (HasPrefix_append pre rest), toList_append]
  cases rest
  simp [String.toList]

end strings

namespace pbody.json

/-- The message of the error that `errf` builds ends with the text given to it. -/
theorem errorText_errf (text : String) :
    errorText (errf text)
      = herr.ErrBadRequest.Error ++ "\n" ++ (pbody.ErrBadContent.Error ++ "\n" ++ text) := rfl

theorem Contains_errf (text substr : String) (h : strings.Contains text substr = true) :
    strings.Contains (errorText (errf text)) substr = true := by
  rw [errorText_errf]
  exact strings.Contains_append_left _ _ _ (strings.Contains_append_left _ _ _ h)

end pbody.json


/-! ## The results of the JSON codec -/

namespace pbody.json

variable {R O D : Type}

theorem Decode_first_error (ext : Externals) (js : EncodingJson R O D) (r : R) (m : MediaType)
    (out : O) (err : GoError)
    (hfirst : (js.Decode (js.DisallowUnknownFields (js.NewDecoder r)) (.out out)).1 = some err) :
    Decode ext js r m out = classify ext err := by
  unfold Decode
  simp only
  revert hfirst
  generalize js.Decode (js.DisallowUnknownFields (js.NewDecoder r)) (.out out) = first
  obtain ⟨e1, dec1⟩ := first
  intro hfirst
  simp only at hfirst
  subst hfirst
  rfl

theorem Decode_first_ok (ext : Externals) (js : EncodingJson R O D) (r : R) (m : MediaType)
    (out : O)
    (hfirst : (js.Decode (js.DisallowUnknownFields (js.NewDecoder r)) (.out out)).1 = none) :
    Decode ext js r m out
      = match (js.Decode (js.Decode (js.DisallowUnknownFields (js.NewDecoder r)) (.out out)).2
          .emptyStruct).1 with
        | some err => if err.identical io.EOF then none else errf "multiple json objects"
        | none => errf "multiple json objects" := by
  unfold Decode
  simp only
  revert hfirst
  generalize js.Decode (js.DisallowUnknownFields (js.NewDecoder r)) (.out out) = first
  obtain ⟨e1, dec1⟩ := first
  intro hfirst
  simp only at hfirst
  subst hfirst
  rfl

/-- C11. Single-document enforcement.  When the first call of the decoder succeeds,
`json.Decode` returns nil exactly when the second call, on what is left of the stream,
returns the value `io.EOF` itself (the comparison is `!=`, not `errors.Is`).  For any other
outcome of the second call, nil (a second document) included, it returns the error of
`errf("multiple json objects")`: it carries `herr.ErrBadRequest` and `pbody.ErrBadContent`
and its message contains `multiple json objects`. -/
theorem Decode_single_document (ext : Externals) (js : EncodingJson R O D) (r : R)
    (m : MediaType) (out : O)
    (hfirst : (js.Decode (js.DisallowUnknownFields (js.NewDecoder r)) (.out out)).1 = none) :
    (Decode ext js r m out = none ↔
        ∃ e, (js.Decode (js.Decode (js.DisallowUnknownFields (js.NewDecoder r)) (.out out)).2
            .emptyStruct).1 = some e ∧ e.identical io.EOF = true)
    ∧ ((js.Decode (js.Decode (js.DisallowUnknownFields (js.NewDecoder r)) (.out out)).2
          .emptyStruct).1 = some io.EOF → Decode ext js r m out = none)
    ∧ ((¬ ∃ e, (js.Decode (js.Decode (js.DisallowUnknownFields (js.NewDecoder r)) (.out out)).2
            .emptyStruct).1 = some e ∧ e.identical io.EOF = true) →
        Decode ext js r m out = errf "multiple json objects"
        ∧ errors.Is (Decode ext js r m out) herr.ErrBadRequest = true
        ∧ errors.Is (Decode ext js r m out) pbody.ErrBadContent = true
        ∧ strings.Contains (errorText (Decode ext js r m out)) "multiple json objects" = true) := by
  rw [Decode_first_ok ext js r m out hfirst]
  generalize (js.Decode (js.Decode (js.DisallowUnknownFields (js.NewDecoder r)) (.out out)).2
    .emptyStruct).1 = second
  have hmulti : errf "multiple json objects" = errf "multiple json objects"
      ∧ errors.Is (errf "multiple json objects") herr.ErrBadRequest = true
      ∧ errors.Is (errf "multiple json objects") pbody.ErrBadContent = true
      ∧ strings.Contains (errorText (errf "multiple json objects")) "multiple json objects"
        = true :=
    ⟨rfl, Is_errf_ErrBadRequest _, Is_errf_ErrBadContent _,
      Contains_errf _ _ (strings.Contains_self _)⟩
  cases second with
  | none =>
    refine ⟨?_, ?_, fun _ => hmulti⟩
    · simp [errf_eq]
    · intro h; cases h
  | some e =>
    by_cases he : e.identical io.EOF = true
    · refine ⟨?_, ?_, ?_⟩
      · simp [he]
      · intro _; simp [he]
      · intro hno
        exact absurd ⟨e, rfl, he⟩ hno
    · refine ⟨?_, ?_, ?_⟩
      · simp [he, errf_eq]
      · intro h
        have h2 : e = io.EOF := Option.some.inj h
        rw [h2] at he
        exact absurd rfl he
      · intro _
        simp only [he, if_false]
        exact hmulti

/-- An instance of C11: the stream `{}{}`, where the second call of the decoder returns
nil for the second document. -/
theorem Decode_single_document_witness :
    strings.Contains (errorText (Decode Sample.ext (Sample.js none none) () Sample.appJson ()))
      "multiple json objects" = true
    ∧ Decode Sample.ext (Sample.js none (some io.EOF)) () Sample.appJson () = none :=
  ⟨((Decode_single_document Sample.ext (Sample.js none none) () Sample.appJson () rfl).2.2
      (fun h => h.elim fun e he => by cases he.1)).2.2.2,
    (Decode_single_document Sample.ext (Sample.js none (some io.EOF)) () Sample.appJson ()
      rfl).2.1 rfl⟩

/-- C12. Empty body.  When the first call of the decoder returns `io.EOF` (a stream with no
data), `json.Decode` returns, for every destination, the error of
`errf("body must not be empty")`, never nil: it carries `herr.ErrBadRequest` and
`pbody.ErrBadContent`, its message contains `body must not be empty`, and its message
does not contain `malformed JSON`. -/
theorem Decode_empty_body (ext : Externals) (js : EncodingJson R O D) (r : R) (m : MediaType)
    (out : O)
    (hfirst : (js.Decode (js.DisallowUnknownFields (js.NewDecoder r)) (.out out)).1
      = some io.EOF) :
    Decode ext js r m out = errf "body must not be empty"
    ∧ Decode ext js r m out ≠ none
    ∧ errors.Is (Decode ext js r m out) herr.ErrBadRequest = true
    ∧ errors.Is (Decode ext js r m out) pbody.ErrBadContent = true
    ∧ strings.Contains (errorText (Decode ext js r m out)) "body must not be empty" = true
    ∧ strings.Contains (errorText (Decode ext js r m out)) "malformed JSON" = false := by
  have hres : Decode ext js r m out = errf "body must not be empty" := by
    rw [Decode_first_error ext js r m out io.EOF hfirst]
    rfl
  rw [hres]
  exact ⟨rfl, by simp [errf_eq], Is_errf_ErrBadRequest _, Is_errf_ErrBadContent _,
    Contains_errf _ _ (strings.Contains_self _), rfl⟩

/-- An instance of C12: the empty stream. -/
theorem Decode_empty_body_witness :
    Decode Sample.ext (Sample.js (some io.EOF) (some io.EOF)) () Sample.appJson ()
        = errf "body must not be empty"
    ∧ strings.Contains
        (errorText (Decode Sample.ext (Sample.js (some io.EOF) (some io.EOF)) () Sample.appJson ()))
        "malformed JSON" = false :=
  have key := Decode_empty_body Sample.ext (Sample.js (some io.EOF) (some io.EOF)) ()
    Sample.appJson () rfl
  ⟨key.1, key.2.2.2.2.2⟩

end pbody.json

namespace pbody.json

variable {R O D : Type}

theorem classify_unknown_field (ext : Externals) (q : String) :
    classify ext (.errorString ("json: unknown field " ++ q)) = errf ("unknown field " ++ q) := by
  have hp : strings.HasPrefix ("json: unknown field " ++ q) "json: unknown field " = true :=
    strings.HasPrefix_append _ _
  have ht : strings.TrimPrefix ("json: unknown field " ++ q) "json: unknown field " = q :=
    strings.TrimPrefix_append _ _
  simp [classify, errors.as, isSyntaxError, isUnmarshalTypeError, errors.Is, errors.is,
    GoError.identical, GoError.Error, hp, ht]

/-- C13. Strict fields.  The decoder that `json.Decode` runs is the one
`DisallowUnknownFields` was called on.  When its first call fails with the error
`json: unknown field q`, where `q` is the field name `n` as the verb `%q` prints it,
`json.Decode` returns the error of `errf("unknown field " + q)`, never nil: it carries
`herr.ErrBadRequest` and `pbody.ErrBadContent` and its message contains
`unknown field q`. -/
theorem Decode_unknown_field (ext : Externals) (js : EncodingJson R O D) (r : R)
    (m : MediaType) (out : O) (n : String)
    (hfirst : (js.Decode (js.DisallowUnknownFields (js.NewDecoder r)) (.out out)).1
      = some (.errorString ("json: unknown field " ++ ext.Quote n))) :
    Decode ext js r m out = errf ("unknown field " ++ ext.Quote n)
    ∧ Decode ext js r m out ≠ none
    ∧ errors.Is (Decode ext js r m out) herr.ErrBadRequest = true
    ∧ errors.Is (Decode ext js r m out) pbody.ErrBadContent = true
    ∧ strings.Contains (errorText (Decode ext js r m out)) ("unknown field " ++ ext.Quote n)
      = true := by
  have hres : Decode ext js r m out = errf ("unknown field " ++ ext.Quote n) := by
    rw [Decode_first_error ext js r m out _ hfirst, classify_unknown_field]
  rw [hres]
  exact ⟨rfl, by simp [errf_eq], Is_errf_ErrBadRequest _, Is_errf_ErrBadContent _,
    Contains_errf _ _ (strings.Contains_self _)⟩

/-- An instance of C13: the document `{"B": 23}` for a destination with the field `A`
only, where the decoder fails with `json: unknown field "B"`. -/
theorem Decode_unknown_field_witness :
    strings.Contains
      (errorText (Decode Sample.ext
        (Sample.js (some (.errorString "json: unknown field \"B\"")) none) () Sample.appJson ()))
      "unknown field \"B\"" = true :=
  (Decode_unknown_field Sample.ext
    (Sample.js (some (.errorString "json: unknown field \"B\"")) none) () Sample.appJson ()
    "B" rfl).2.2.2.2

theorem classify_syntaxError (ext : Externals) (err : GoError) (msg : String) (k : Int)
    (has : errors.as isSyntaxError err = some (.syntaxError msg k)) :
    classify ext err = errf ("malformed JSON (at position " ++ toString k ++ ")") := by
  simp [classify, has]

theorem classify_unexpectedEOF (ext : Externals) (err : GoError)
    (hsyn : errors.as isSyntaxError err = none)
    (heof : errors.Is (some err) io.ErrUnexpectedEOF = true) :
    classify ext err = errf "malformed JSON" := by
  simp [classify, hsyn, heof]

theorem classify_unmarshalTypeError (ext : Externals) (err : GoError) (v t s f : String)
    (k : Int) (hsyn : errors.as isSyntaxError err = none)
    (heof : errors.Is (some err) io.ErrUnexpectedEOF = false)
    (has : errors.as isUnmarshalTypeError err = some (.unmarshalTypeError v t k s f)) :
    classify ext err
      = errf ("malformed JSON (at position " ++ toString k ++ "), bad value for "
          ++ ext.Quote f) := by
  simp [classify, hsyn, heof, has]

/-- C14. Malformed-document detail.  With `err` the error of the decoder's first call:
(1) when `errors.As` finds a `*json.SyntaxError` with offset `k` in it, the message of the
result contains `malformed JSON (at position k)`; (2) when it finds none and `errors.Is`
holds for `err` with `io.ErrUnexpectedEOF`, the result is the error of
`errf("malformed JSON")`, whose message contains `malformed JSON` and no `at position`; (3) when neither holds and `errors.As`
finds a `*json.UnmarshalTypeError` with offset `k` and field `f`, the message contains
`malformed JSON (at position k), bad value for ` followed by `f` as `%q` prints it.  In
all three cases the result carries `herr.ErrBadRequest` and `pbody.ErrBadContent`. -/
theorem Decode_malformed_detail (ext : Externals) (js : EncodingJson R O D) (r : R)
    (m : MediaType) (out : O) (err : GoError)
    (hfirst : (js.Decode (js.DisallowUnknownFields (js.NewDecoder r)) (.out out)).1 = some err) :
    (∀ msg k, errors.as isSyntaxError err = some (.syntaxError msg k) →
        strings.Contains (errorText (Decode ext js r m out))
          ("malformed JSON (at position " ++ toString k ++ ")") = true
        ∧ errors.Is (Decode ext js r m out) herr.ErrBadRequest = true
        ∧ errors.Is (Decode ext js r m out) pbody.ErrBadContent = true)
    ∧ (errors.as isSyntaxError err = none → errors.Is (some err) io.ErrUnexpectedEOF = true →
        Decode ext js r m out = errf "malformed JSON"
        ∧ strings.Contains (errorText (Decode ext js r m out)) "malformed JSON" = true
        ∧ strings.Contains (errorText (Decode ext js r m out)) "at position" = false
        ∧ errors.Is (Decode ext js r m out) herr.ErrBadRequest = true
        ∧ errors.Is (Decode ext js r m out) pbody.ErrBadContent = true)
    ∧ (∀ v t s f k, errors.as isSyntaxError err = none →
        errors.Is (some err) io.ErrUnexpectedEOF = false →
        errors.as isUnmarshalTypeError err = some (.unmarshalTypeError v t k s f) →
        strings.Contains (errorText (Decode ext js r m out))
          ("malformed JSON (at position " ++ toString k ++ "), bad value for " ++ ext.Quote f)
          = true
        ∧ errors.Is (Decode ext js r m out) herr.ErrBadRequest = true
        ∧ errors.Is (Decode ext js r m out) pbody.ErrBadContent = true) := by
  rw [Decode_first_error ext js r m out err hfirst]
  refine ⟨?_, ?_, ?_⟩
  · intro msg k has
    rw [classify_syntaxError ext err msg k has]
    exact ⟨Contains_errf _ _ (strings.Contains_self _), Is_errf_ErrBadRequest _,
      Is_errf_ErrBadContent _⟩
  · intro hsyn heof
    rw [classify_unexpectedEOF ext err hsyn heof]
    exact ⟨rfl, Contains_errf _ _ (strings.Contains_self _), rfl, Is_errf_ErrBadRequest _,
      Is_errf_ErrBadContent _⟩
  · intro v t s f k hsyn heof has
    rw [classify_unmarshalTypeError ext err v t s f k hsyn heof has]
    exact ⟨Contains_errf _ _ (strings.Contains_self _), Is_errf_ErrBadRequest _,
      Is_errf_ErrBadContent _⟩

/-- An instance of C14: the document `{"A": 1}` for a destination whose field `A` is a
string, where the decoder fails with a type mismatch at offset 7 for the field `A`. -/
theorem Decode_malformed_detail_witness :
    strings.Contains
      (errorText (Decode Sample.ext
        (Sample.js (some (.unmarshalTypeError "number" "string" 7 "" "A")) none) ()
        Sample.appJson ()))
      "malformed JSON (at position 7), bad value for \"A\"" = true :=
  ((Decode_malformed_detail Sample.ext
    (Sample.js (some (.unmarshalTypeError "number" "string" 7 "" "A")) none) () Sample.appJson ()
    (.unmarshalTypeError "number" "string" 7 "" "A") rfl).2.2
    "number" "string" "" "A" 7 rfl rfl rfl).1

/-- C15. JSON detection.  The function `Detect` accepts a media type exactly when its type is
`application` and its subtype is `json`; two media types with the same type and subtype
get the same answer, whatever their parameters. -/
theorem Detect_iff (M : MediaType) :
    (Detect M = true ↔ M.Type_ = "application" ∧ M.Subtype = "json")
    ∧ (∀ M2 : MediaType, M2.Type_ = M.Type_ → M2.Subtype = M.Subtype → Detect M2 = Detect M)
    ∧ (∀ params : List (String × String),
        Detect { M with Parameters := params } = Detect M) := by
  refine ⟨?_, ?_, ?_⟩
  · simp [Detect]
  · intro M2 ht hs
    simp [Detect, ht, hs]
  · intro params
    rfl

/-- An instance of C15: `application/json; charset=utf-8` is accepted and `text/json` is
not. -/
theorem Detect_iff_witness :
    Detect ⟨"application", "json", [("charset", "utf-8")]⟩ = true
    ∧ Detect ⟨"text", "json", []⟩ = false :=
  ⟨(Detect_iff ⟨"application", "json", [("charset", "utf-8")]⟩).1.2 ⟨rfl, rfl⟩, by decide⟩

end pbody.json

/-! ## Independence of decoders, and stability of the dispatch -/

namespace pbody.Decoder

variable {R O : Type}

theorem cells_buildRegistry (h : Heap (Codec R O)) (old : Option Nat) (codec : Codec R O) :
    ∃ s, (buildRegistry h old codec).1.cells = h.cells ++ [s]
      ∧ (buildRegistry h old codec).2 = h.cells.length := by
  cases old with
  | none => exact ⟨_, rfl, rfl⟩
  | some p =>
    simp only [buildRegistry, Heap.newCell, Heap.append]
    split <;> exact ⟨_, rfl, rfl⟩

theorem deref_buildRegistry (h : Heap (Codec R O)) (old : Option Nat) (codec : Codec R O)
    (p : Nat) (hp : p < h.cells.length) :
    (buildRegistry h old codec).1.deref p = h.deref p := by
  obtain ⟨s, hs, -⟩ := cells_buildRegistry h old codec
  simp [Heap.deref, hs, List.getD_eq_getElem?_getD, List.getElem?_append_left hp]

theorem length_arrays_buildRegistry (h : Heap (Codec R O)) (old : Option Nat)
    (codec : Codec R O) :
    h.arrays.length ≤ (buildRegistry h old codec).1.arrays.length := by
  cases old with
  | none => simp [buildRegistry, Heap.newCell, Heap.literal]
  | some p =>
    simp only [buildRegistry, Heap.newCell, Heap.append]
    split <;> simp

/-- A call of `Register` leaves every backing array but the one of its own slice as it
was. -/
theorem arrays_buildRegistry (h : Heap (Codec R O)) (d1 : Decoder) (codec : Codec R O)
    (a : Nat) (ha : a < h.arrays.length)
    (hne : ∀ p1, d1.codecsPtr = some p1 → (h.deref p1).array ≠ a) :
    (buildRegistry h d1.codecsPtr codec).1.arrays.getD a [] = h.arrays.getD a [] := by
  cases hp : d1.codecsPtr with
  | none =>
    simp [buildRegistry, Heap.newCell, Heap.literal, List.getD_eq_getElem?_getD,
      List.getElem?_append_left ha]
  | some p1 =>
    have hne1 := hne p1 hp
    simp only [buildRegistry, Heap.newCell, Heap.append]
    split
    · simp [List.getD_eq_getElem?_getD, List.getElem?_set_ne hne1]
    · simp [List.getD_eq_getElem?_getD, List.getElem?_append_left ha]

theorem registry_frame (h : Heap (Codec R O)) (d1 d2 : Decoder) (codec : Codec R O)
    (hwf2 : WellFormed h d2) (hsep : Separate h d1 d2) :
    registry (buildRegistry h d1.codecsPtr codec).1 d2 = registry h d2 := by
  unfold registry snapshot Load
  cases hp2 : d2.codecsPtr with
  | none => rfl
  | some p2 =>
    obtain ⟨hcell, harr, -⟩ := hwf2 p2 hp2
    simp only [Option.map_some', Option.getD_some, Heap.read, Heap.elems]
    rw [deref_buildRegistry h _ codec p2 hcell,
      arrays_buildRegistry h d1 codec _ harr (fun p1 hp1 => hsep p1 p2 hp1 hp2)]

theorem wellFormed_frame (h : Heap (Codec R O)) (d1 d2 : Decoder) (codec : Codec R O)
    (hwf2 : WellFormed h d2) (hsep : Separate h d1 d2) :
    WellFormed (buildRegistry h d1.codecsPtr codec).1 d2 := by
  intro p2 hp2
  obtain ⟨hcell, harr, hlen⟩ := hwf2 p2 hp2
  obtain ⟨s, hs, -⟩ := cells_buildRegistry h d1.codecsPtr codec
  rw [deref_buildRegistry h _ codec p2 hcell,
    arrays_buildRegistry h d1 codec _ harr (fun p1 hp1 => hsep p1 p2 hp1 hp2)]
  refine ⟨?_, Nat.lt_of_lt_of_le harr (length_arrays_buildRegistry h _ codec), hlen⟩
  rw [hs]
  simp
  omega

theorem separate_frame (h : Heap (Codec R O)) (d1 d2 : Decoder) (codec : Codec R O)
    (hwf2 : WellFormed h d2) (hsep : Separate h d1 d2) :
    Separate (buildRegistry h d1.codecsPtr codec).1
      ⟨some (buildRegistry h d1.codecsPtr codec).2⟩ d2 := by
  intro q p2 hq hp2
  simp only [Option.some.injEq] at hq
  subst hq
  obtain ⟨hcell, harr, -⟩ := hwf2 p2 hp2
  rw [deref_buildRegistry h _ codec p2 hcell]
  cases hp1 : d1.codecsPtr with
  | none =>
    simp only [buildRegistry]
    rw [Heap.deref_newCell]
    simp only [Heap.literal]
    omega
  | some p1 =>
    simp only [buildRegistry]
    rw [Heap.deref_newCell]
    unfold Heap.append
    split
    · exact hsep p1 p2 hp1 hp2
    · simp only
      omega

/-- C16. Default instance and instance independence.  The package-level `Register` and
`Decode` are `Default.Register` and `Default.Decode`.  For two decoders that own their
registries (well formed, their slices in different arrays, as for decoders each built from
a zero value by `Register`), `Register` on `d1` leaves the registry of `d2` as it was, and
with it every result and call log of `d2.findCodec` and `d2.Decode`; the two decoders
are again well formed and own their registries afterwards, as zero-value decoders do, so
the condition holds after any sequence of `Register` calls on decoders that started as
zero values. -/
theorem Register_leaves_other_decoder (ext : Externals) (h : Heap (Codec R O)) (d1 d2 : Decoder)
    (codec : Codec R O) (hwf1 : WellFormed h d1) (hwf2 : WellFormed h d2)
    (hsep : Separate h d1 d2) :
    (∀ (c : Codec R O) (fuel : Nat) (h0 : Heap (Codec R O)) (Default : Decoder),
        pbody.Register c fuel h0 Default = Default.RegisterLoop c fuel h0)
    ∧ (∀ (h0 : Heap (Codec R O)) (Default : Decoder) (r : Request) (body : R) (out : O),
        pbody.Decode ext h0 Default r body out = Default.Decode ext h0 r body out)
    ∧ ∃ h1 d1', RegisterLoop codec 1 h d1 = some (h1, d1')
        ∧ registry h1 d1' = registry h d1 ++ [codec]
        ∧ registry h1 d2 = registry h d2
        ∧ (∀ M, d2.findCodec h1 M = d2.findCodec h M)
        ∧ (∀ (r : Request) (body : R) (out : O),
            d2.Decode ext h1 r body out = d2.Decode ext h r body out)
        ∧ WellFormed h1 d1' ∧ WellFormed h1 d2 ∧ Separate h1 d1' d2 ∧ Separate h1 d2 d1'
        ∧ (∀ (h0 : Heap (Codec R O)) (d0 : Decoder),
            WellFormed h0 ⟨none⟩ ∧ Separate h0 ⟨none⟩ d0 ∧ Separate h0 d0 ⟨none⟩) := by
  refine ⟨fun _ _ _ _ => rfl, fun _ _ _ _ _ => rfl, _, _, RegisterLoop_succ codec 0 h d1,
    registry_buildRegistry codec h d1 hwf1, registry_frame h d1 d2 codec hwf2 hsep, ?_, ?_,
    wellFormed_buildRegistry codec h d1 hwf1, wellFormed_frame h d1 d2 codec hwf2 hsep,
    separate_frame h d1 d2 codec hwf2 hsep,
    fun p2 q h2 hq => (separate_frame h d1 d2 codec hwf2 hsep q p2 hq h2).symm,
    fun h0 d0 => ⟨wellFormed_zero h0, fun _ _ h1 _ => Option.noConfusion h1,
      fun _ _ _ h2 => Option.noConfusion h2⟩⟩
  · intro M
    rw [findCodec_eq_loop, findCodec_eq_loop, registry_frame h d1 d2 codec hwf2 hsep]
  · intro r body out
    exact Decode_congr ext _ h d2 d2 (registry_frame h d1 d2 codec hwf2 hsep) r body out

theorem findCodecLoop_append_fst (M : MediaType) (L : List (Codec R O)) (c : Codec R O) :
    (findCodecLoop M (L ++ [c])).1
      = match (findCodecLoop M L).1 with
        | some k => some k
        | none => if c.DetectFn M = true then some c else none := by
  induction L with
  | nil =>
    by_cases hc : c.DetectFn M = true
    · simp [findCodecLoop, hc]
    · simp only [Bool.not_eq_true] at hc
      simp [findCodecLoop, hc]
  | cons x xs ih =>
    by_cases hx : x.DetectFn M = true
    · simp [findCodecLoop, hx]
    · simp only [Bool.not_eq_true] at hx
      simpa [findCodecLoop, hx] using ih

/-- C17. Dispatch is stable under registration.  From a well-formed state, after
`Register(c)`: a media type for which `findCodec` returned the codec `k` before still
gets `k`; a media type for which it returned not-found gets `c` if `c.DetectFn` accepts
it and not-found otherwise. -/
theorem findCodec_stable_under_Register (h : Heap (Codec R O)) (d : Decoder) (c : Codec R O)
    (M : MediaType) (hwf : WellFormed h d) :
    ∃ h1 d1, RegisterLoop c 1 h d = some (h1, d1)
      ∧ (∀ k, (d.findCodec h M).1 = some k → (d1.findCodec h1 M).1 = some k)
      ∧ ((d.findCodec h M).1 = none →
          (d1.findCodec h1 M).1 = if c.DetectFn M = true then some c else none) := by
  refine ⟨_, _, RegisterLoop_succ c 0 h d, ?_, ?_⟩
  · intro k hk
    rw [findCodec_eq_loop] at hk
    rw [findCodec_eq_loop, registry_buildRegistry c h d hwf, findCodecLoop_append_fst, hk]
  · intro hk
    rw [findCodec_eq_loop] at hk
    rw [findCodec_eq_loop, registry_buildRegistry c h d hwf, findCodecLoop_append_fst, hk]

/-- C18. Only the first `Content-Type` value decides.  Two requests whose `Content-Type`
values start with the same value (or that both have none) get the same result and the same
calls from `Decode`; when the first value is the empty string the result is the
missing-content-type error and nothing is called, whatever values follow. -/
theorem Decode_first_value_only (ext : Externals) (h : Heap (Codec R O)) (d : Decoder)
    (r1 r2 : Request) (body : R) (out : O)
    (hhead : (r1.HeaderValues "Content-Type").head? = (r2.HeaderValues "Content-Type").head?) :
    d.Decode ext h r1 body out = d.Decode ext h r2 body out
    ∧ (∀ rest, r1.HeaderValues "Content-Type" = "" :: rest →
        d.Decode ext h r1 body out
          = (some (.joinError [herr.ErrBadRequest, ErrMissingContentType]), [])) := by
  constructor
  · unfold Decode
    cases h1 : r1.HeaderValues "Content-Type" with
    | nil =>
      cases h2 : r2.HeaderValues "Content-Type" with
      | nil => rfl
      | cons v2 rest2 => rw [h1, h2] at hhead; cases hhead
    | cons v1 rest1 =>
      cases h2 : r2.HeaderValues "Content-Type" with
      | nil => rw [h1, h2] at hhead; cases hhead
      | cons v2 rest2 =>
        rw [h1, h2] at hhead
        simp only [List.head?_cons, Option.some.injEq] at hhead
        subst hhead
        rfl
  · intro rest hrest
    exact Decode_of_missing ext h d r1 body out (Or.inr (by rw [hrest]; rfl))

end pbody.Decoder

namespace pbody.Decoder

/-- An instance of C16: a fourth `Register` on the first of two decoders, an append in
place; the second decoder keeps its registry. -/
theorem Register_leaves_other_decoder_witness :
    ∃ h1 d1, RegisterLoop (Sample.codec "c4" none) 1 Sample.pair.1 Sample.pair.2.1 = some (h1, d1)
      ∧ registry h1 d1
        = [Sample.codec "c1" none, Sample.codec "c2" none, Sample.codec "c3" none,
            Sample.codec "c4" none]
      ∧ registry h1 Sample.pair.2.2 = [Sample.codec "x" none] :=
  have hwf1 : WellFormed Sample.pair.1 Sample.pair.2.1 := fun p hp => by
    have hp2 : p = 2 := (Option.some.inj hp).symm
    subst hp2
    exact ⟨by decide, by decide, by decide⟩
  have hwf2 : WellFormed Sample.pair.1 Sample.pair.2.2 := fun p hp => by
    have hp2 : p = 3 := (Option.some.inj hp).symm
    subst hp2
    exact ⟨by decide, by decide, by decide⟩
  have hsep : Separate Sample.pair.1 Sample.pair.2.1 Sample.pair.2.2 := fun p1 p2 h1 h2 => by
    have e1 : p1 = 2 := (Option.some.inj h1).symm
    have e2 : p2 = 3 := (Option.some.inj h2).symm
    subst e1 e2
    decide
  have key := (Register_leaves_other_decoder Sample.ext Sample.pair.1 Sample.pair.2.1
    Sample.pair.2.2 (Sample.codec "c4" none) hwf1 hwf2 hsep).2.2
  key.elim fun h1 hrest => hrest.elim fun d1 hd => ⟨h1, d1, hd.1, hd.2.1, hd.2.2.1⟩

/-- An instance of C17: after a fourth `Register`, of a second codec that accepts
`application/c1`, the lookup of `application/c1` still returns the first. -/
theorem findCodec_stable_under_Register_witness :
    ∃ h1 d1, RegisterLoop (Sample.codec "c1" (some io.EOF)) 1 Sample.racing.heap
        Sample.racing.decoder = some (h1, d1)
      ∧ (d1.findCodec h1 (Sample.app "c1")).1 = some (Sample.codec "c1" none) :=
  have hwf : WellFormed Sample.racing.heap Sample.racing.decoder := fun p hp => by
    have hp2 : p = 2 := (Option.some.inj hp).symm
    subst hp2
    exact ⟨by decide, by decide, by decide⟩
  have key := findCodec_stable_under_Register Sample.racing.heap Sample.racing.decoder
    (Sample.codec "c1" (some io.EOF)) (Sample.app "c1") hwf
  key.elim fun h1 hrest => hrest.elim fun d1 hd =>
    ⟨h1, d1, hd.1, hd.2.1 (Sample.codec "c1" none) rfl⟩

/-- An instance of C18: a second `Content-Type` value changes nothing, and an empty
first value gives the missing-content-type error although a registered media type
follows. -/
theorem Decode_first_value_only_witness :
    (Sample.setup [Sample.codec "json" none]).2.Decode Sample.ext
        (Sample.setup [Sample.codec "json" none]).1
        (Sample.request ["application/json", "text/plain"]) () ()
      = (Sample.setup [Sample.codec "json" none]).2.Decode Sample.ext
        (Sample.setup [Sample.codec "json" none]).1
        (Sample.request ["application/json"]) () ()
    ∧ (Sample.setup [Sample.codec "json" none]).2.Decode Sample.ext
        (Sample.setup [Sample.codec "json" none]).1
        (Sample.request ["", "application/json"]) () ()
      = (some (.joinError [herr.ErrBadRequest, ErrMissingContentType]), []) :=
  ⟨(Decode_first_value_only Sample.ext (Sample.setup [Sample.codec "json" none]).1
      (Sample.setup [Sample.codec "json" none]).2
      (Sample.request ["application/json", "text/plain"]) (Sample.request ["application/json"])
      () () rfl).1,
    (Decode_first_value_only Sample.ext (Sample.setup [Sample.codec "json" none]).1
      (Sample.setup [Sample.codec "json" none]).2
      (Sample.request ["", "application/json"]) (Sample.request [""])
      () () rfl).2 ["application/json"] rfl⟩

end pbody.Decoder
